import Mathlib

/-!
# Socket registry and event dispatch of the STM32F746G-Discovery port

A shallow embedding of
`platforms/stm/disco_dartino/src/stm32f746g-discovery/socket.cc`.

The global variables `sockets_`, `socketSet_` and `socketHandlerTask_` become
fields of an explicit `State`, every function of the file becomes a function on
that state, and one wake-up of the endless loop of `SocketHandlerTask` becomes
`SocketHandlerPass`.  The hash map, the device manager and the network stack are
not part of the sources at hand; they are modelled from the specification and
every such definition says so.
-/

namespace Dartino

/-- A socket is an opaque identity handed out by the network stack. -/
abbrev Socket_t := Nat

/-- Modelled from the spec: the mask of all event kinds (`eSELECT_ALL` of the
network stack's headers, which are not among the sources). -/
def eSELECT_ALL : Nat := 0xF

/-- The C expression `a & ~b` on `uint32_t` operands. -/
def clearBits (a b : Nat) : Nat := a &&& (0xFFFFFFFF ^^^ b)

/-! ## Hash map (`src/vm/hash_map.h`) -/

/-- Modelled from the spec: `dartino::HashMap<Socket_t, uint32_t>` is a mapping
from socket identity to device handle; the header is not among the sources.  The
entries are kept in iteration order. -/
abbrev HashMap := List (Socket_t × Nat)

namespace HashMap

/-- Modelled from the spec: `lookup(socket)`, the stored handle or "not found". -/
def find : HashMap → Socket_t → Option Nat
  | [], _ => none
  | (k, v) :: rest, key => if k = key then some v else find rest key

/-- Modelled from the spec: the assignment `map[key] = value`, which overwrites
the entry of `key` or adds one. -/
def set : HashMap → Socket_t → Nat → HashMap
  | [], key, value => [(key, value)]
  | (k, v) :: rest, key, value =>
    if k = key then (k, value) :: rest else (k, v) :: set rest key value

/-- Modelled from the spec: the read `map[key]`, which yields the stored value
and, when `key` has no entry, first adds one holding the default value `0`. -/
def index (m : HashMap) (key : Socket_t) : Nat × HashMap :=
  match find m key with
  | some v => (v, m)
  | none => (0, set m key 0)

/-- The keys of the map, in iteration order. -/
def keys (m : HashMap) : List Socket_t := m.map Prod.fst

end HashMap

/-! ## Device manager (`platforms/stm/disco_dartino/src/device_manager.h`) -/

/-- Modelled from the spec: the device manager owns the devices, each identified
by a non-zero handle and holding accumulated flags; creating a device fails when
resources are exhausted.  Its sources are not at hand. -/
structure DeviceManager where
  /-- The live devices as pairs of handle and flags. -/
  devices : List (Nat × Nat)
  /-- The number of devices the manager has room for. -/
  capacity : Nat
deriving DecidableEq

namespace DeviceManager

/-- The flags of the device with the given handle, if there is one. -/
def flags (dm : DeviceManager) (handle : Nat) : Option Nat :=
  (dm.devices.find? (fun d => d.1 == handle)).map Prod.snd

/-- A handle that no live device has; the first one handed out is `1`. -/
def freshHandle (dm : DeviceManager) : Nat :=
  (dm.devices.map Prod.fst).foldr max 0 + 1

/-- Modelled from the spec: `create_device() -> handle`, which fails if resources
are exhausted; failure is reported as the reserved handle `0` and creates
nothing. -/
def CreateSocket (dm : DeviceManager) : Nat × DeviceManager :=
  if dm.devices.length < dm.capacity then
    (dm.freshHandle, { dm with devices := (dm.freshHandle, 0) :: dm.devices })
  else
    (0, dm)

/-- Modelled from the spec: `get_device(handle) -> device_ref`, invalid (`none`,
the null pointer) if the handle is unknown; `0` is never a device.  A valid
reference is the handle of a live device. -/
def GetDevice (dm : DeviceManager) (handle : Nat) : Option Nat :=
  if handle = 0 then none
  else if (dm.flags handle).isSome then some handle
  else none

/-- Modelled from the spec: `remove_device(device_ref)`; the device is removed if
found. -/
def RemoveDevice (dm : DeviceManager) : Option Nat → DeviceManager
  | none => dm
  | some handle => { dm with devices := dm.devices.filter (fun d => d.1 != handle) }

/-- Modelled from the spec: `device.set_flags(mask)` adds `mask` to the
accumulated flags of the referenced device. -/
def SetFlags (dm : DeviceManager) (device : Nat) (mask : Nat) : DeviceManager :=
  { dm with devices :=
      dm.devices.map (fun d => if d.1 = device then (d.1, d.2 ||| mask) else d) }

/-- Modelled from the spec: `device.clear_flags(mask)` removes `mask` from the
accumulated flags of the referenced device. -/
def ClearFlags (dm : DeviceManager) (device : Nat) (mask : Nat) : DeviceManager :=
  { dm with devices :=
      dm.devices.map (fun d => if d.1 = device then (d.1, clearBits d.2 mask) else d) }

end DeviceManager

/-! ## Network stack: socket sets -/

/-- Modelled from the spec: the Wait Set, a per-socket interest mask; a socket is
in the set while its mask has an event kind.  The stack is not among the
sources. -/
abbrev SocketSet_t := List (Socket_t × Nat)

/-- The interest mask of a socket in a socket set (`NULL` holds no socket). -/
def selectBits : Option SocketSet_t → Socket_t → Nat
  | none, _ => 0
  | some set, socket => (HashMap.find set socket).getD 0

/-- Membership of a socket in the Wait Set. -/
def inSocketSet (set : Option SocketSet_t) (socket : Socket_t) : Prop :=
  selectBits set socket &&& eSELECT_ALL ≠ 0

instance (set : Option SocketSet_t) (socket : Socket_t) :
    Decidable (inSocketSet set socket) := by
  unfold inSocketSet; exact inferInstance

/-- Modelled from the spec: add-socket-to-set-with-mask, with bitwise OR
semantics if already present. -/
def FreeRTOS_FD_SET (socket : Socket_t) (set : Option SocketSet_t) (mask : Nat) :
    Option SocketSet_t :=
  set.map (fun m => HashMap.set m socket (selectBits set socket ||| (mask &&& eSELECT_ALL)))

/-- Modelled from the spec: remove-socket-from-set-with-mask, which clears the
given bits from the socket's mask. -/
def FreeRTOS_FD_CLR (socket : Socket_t) (set : Option SocketSet_t) (mask : Nat) :
    Option SocketSet_t :=
  set.map (fun m => HashMap.set m socket (clearBits (selectBits set socket) (mask &&& eSELECT_ALL)))

/-- Modelled from the spec: the per-socket ready-mask query.  `ready` is what the
stack reports for each socket at this wake-up; a socket is reported only for the
event kinds it is watched for. -/
def FreeRTOS_FD_ISSET (ready : Socket_t → Nat) (socket : Socket_t)
    (set : Option SocketSet_t) : Nat :=
  ready socket &&& selectBits set socket &&& eSELECT_ALL

/-- Modelled from the spec: the bounded blocking wait, which returns zero exactly
when no socket of the set is ready. -/
def FreeRTOS_select (ready : Socket_t → Nat) (set : Option SocketSet_t) : Nat :=
  match set with
  | none => 0
  | some m => (m.filter (fun e => FreeRTOS_FD_ISSET ready e.1 set != 0)).length

/-! ## The module state -/

/-- The globals of `socket.cc` together with the collaborators they refer to. -/
structure State where
  /-- The registry `sockets_`. -/
  sockets_ : HashMap
  /-- The Wait Set `socketSet_`, `none` while it is `NULL`. -/
  socketSet_ : Option SocketSet_t
  /-- The handle `socketHandlerTask_`, `none` while it is `NULL`. -/
  socketHandlerTask_ : Option Nat
  /-- The device manager returned by `GetDeviceManager()`. -/
  deviceManager : DeviceManager
  /-- How many socket sets `FreeRTOS_CreateSocketSet` has created. -/
  socketSetsCreated : Nat
  /-- How many tasks `xTaskCreate` has started. -/
  tasksCreated : Nat
  /-- The sockets passed to `FreeRTOS_closesocket`, latest first. -/
  closedSockets : List Socket_t
deriving DecidableEq

/-- The state at start-up: empty registry, `socketSet_ = NULL`,
`socketHandlerTask_ = NULL`, and a device manager without devices. -/
def initialState (capacity : Nat) : State :=
  { sockets_ := [], socketSet_ := none, socketHandlerTask_ := none,
    deviceManager := { devices := [], capacity := capacity },
    socketSetsCreated := 0, tasksCreated := 0, closedSockets := [] }

/-- The result of code that may dereference a device pointer. -/
inductive Outcome (α : Type) where
  /-- The code ran to its end. -/
  | ok (value : α)
  /-- The code dereferenced the invalid reference that `GetDevice` returned for
  the given handle. -/
  | nullDevice (handle : Nat)
deriving DecidableEq

/-! ## The functions of `socket.cc` -/

/-- `RegisterSocket`: lines 23 to 27. -/
def RegisterSocket (socket : Socket_t) (st : State) : Nat × State :=
  let created := st.deviceManager.CreateSocket
  let handle := created.1
  (handle, { st with deviceManager := created.2,
                     sockets_ := HashMap.set st.sockets_ socket handle })

/-- `ListenForSocketEvent`: lines 29 to 36.  Creating the socket set and the task
is modelled from the spec as always succeeding. -/
def ListenForSocketEvent (socket : Socket_t) (mask : Nat) (st : State) : State :=
  let st1 :=
    if st.socketHandlerTask_ = none then
      { st with socketSet_ := some [],
                socketSetsCreated := st.socketSetsCreated + 1,
                socketHandlerTask_ := some (st.tasksCreated + 1),
                tasksCreated := st.tasksCreated + 1 }
    else st
  { st1 with socketSet_ := FreeRTOS_FD_SET socket st1.socketSet_ mask }

/-- `UnregisterAndCloseSocket`: lines 38 to 45. -/
def UnregisterAndCloseSocket (socket : Socket_t) (st : State) : State :=
  let set1 := FreeRTOS_FD_CLR socket st.socketSet_ eSELECT_ALL
  let read := HashMap.index st.sockets_ socket
  let handle := read.1
  let device := st.deviceManager.GetDevice handle
  let dm1 := st.deviceManager.RemoveDevice device
  { st with socketSet_ := set1,
            deviceManager := dm1,
            sockets_ := HashMap.set read.2 socket 0,
            closedSockets := socket :: st.closedSockets }

/-- `SocketConnect`: lines 47 to 52; `connect` is the answer of the stack's
`FreeRTOS_connect`, which is passed through. -/
def SocketConnect (connect : Socket_t → Nat → Nat → Nat) (socket : Socket_t)
    (address port : Nat) (st : State) : Nat × State :=
  (connect socket address port, st)

/-- `ResetSocketFlags`: lines 54 to 56. -/
def ResetSocketFlags (handle : Nat) (st : State) : Outcome State :=
  match st.deviceManager.GetDevice handle with
  | none => Outcome.nullDevice handle
  | some device =>
    Outcome.ok { st with deviceManager := st.deviceManager.ClearFlags device eSELECT_ALL }

/-- What one pass over the registry has done so far. -/
structure Pass where
  /-- The device manager. -/
  deviceManager : DeviceManager
  /-- The Wait Set. -/
  socketSet_ : Option SocketSet_t
  /-- The `SetFlags` calls issued, oldest first, as pairs of the handle the device
  was looked up with and the events forwarded; a call issued on an invalid
  reference is listed too. -/
  forwarded : List (Nat × Nat)
  /-- The handle whose invalid device reference was dereferenced, if any. -/
  fault : Option Nat
deriving DecidableEq

/-- The loop of lines 62 to 70 over the registry entries. -/
def dispatch (ready : Socket_t → Nat) : List (Socket_t × Nat) → Pass → Pass
  | [], p => p
  | (socket, handle) :: rest, p =>
    let events := FreeRTOS_FD_ISSET ready socket p.socketSet_
    if events ≠ 0 then
      match p.deviceManager.GetDevice handle with
      | none =>
        { p with forwarded := p.forwarded ++ [(handle, events)], fault := some handle }
      | some device =>
        dispatch ready rest
          { p with deviceManager := p.deviceManager.SetFlags device events,
                   socketSet_ := FreeRTOS_FD_CLR socket p.socketSet_ events,
                   forwarded := p.forwarded ++ [(handle, events)] }
    else dispatch ready rest p

/-- One iteration of the endless loop of `SocketHandlerTask`, lines 61 to 71,
for the readiness `ready` that the stack reports at this wake-up. -/
def SocketHandlerPass (ready : Socket_t → Nat) (st : State) : Pass :=
  let start : Pass :=
    { deviceManager := st.deviceManager, socketSet_ := st.socketSet_,
      forwarded := [], fault := none }
  if FreeRTOS_select ready st.socketSet_ ≠ 0 then
    dispatch ready st.sockets_ start
  else start

/-- The state a pass leaves behind. -/
def Pass.state (p : Pass) (st : State) : Outcome State :=
  match p.fault with
  | some handle => Outcome.nullDevice handle
  | none => Outcome.ok { st with deviceManager := p.deviceManager, socketSet_ := p.socketSet_ }

/-- `SocketHandlerTask`: lines 58 to 73, run for the wake-ups in `reports`. -/
def SocketHandlerTask : List (Socket_t → Nat) → State → Outcome State
  | [], st => Outcome.ok st
  | ready :: later, st =>
    match (SocketHandlerPass ready st).state st with
    | Outcome.ok st1 => SocketHandlerTask later st1
    | Outcome.nullDevice handle => Outcome.nullDevice handle

/-! ## Call sequences and reachable states -/

/-- A call of one of the three life-cycle operations. -/
inductive Call where
  /-- The call `RegisterSocket(socket)`. -/
  | register (socket : Socket_t)
  /-- The call `ListenForSocketEvent(socket, mask)`. -/
  | listen (socket : Socket_t) (mask : Nat)
  /-- The call `UnregisterAndCloseSocket(socket)`. -/
  | unregister (socket : Socket_t)
deriving DecidableEq

/-- The state after a call. -/
def Call.apply : Call → State → State
  | Call.register socket, st => (RegisterSocket socket st).2
  | Call.listen socket mask, st => ListenForSocketEvent socket mask st
  | Call.unregister socket, st => UnregisterAndCloseSocket socket st

/-- The state after a sequence of calls, made one after the other. -/
def run : State → List Call → State
  | st, [] => st
  | st, c :: cs => run (c.apply st) cs

/-- The state after a sequence of `ListenForSocketEvent` calls, each given as
socket and mask. -/
def listenAll : State → List (Socket_t × Nat) → State
  | st, [] => st
  | st, c :: cs => listenAll (ListenForSocketEvent c.1 c.2 st) cs

/-- The registry holds at most one entry per socket, and every socket of the
Wait Set has an entry in the registry. -/
def RegistryInvariant (st : State) : Prop :=
  (HashMap.keys st.sockets_).Nodup ∧
  ∀ socket, inSocketSet st.socketSet_ socket → socket ∈ HashMap.keys st.sockets_

/-- A `ListenForSocketEvent` call is made for a socket that has a registry
entry; the other calls are not restricted. -/
def Call.hasEntry (st : State) : Call → Prop
  | Call.listen socket _ => socket ∈ HashMap.keys st.sockets_
  | _ => True

/-- In a sequence of calls starting in `st`, every `ListenForSocketEvent` call
is made for a socket that has a registry entry at that time. -/
def ListenOnEntries : State → List Call → Prop
  | _, [] => True
  | st, c :: cs => c.hasEntry st ∧ ListenOnEntries (c.apply st) cs

/-- The usage discipline of a call: `ListenForSocketEvent` is called for a
socket whose registry handle is not the "none" handle, and `RegisterSocket` is
not called for a socket of the Wait Set when device creation fails. -/
def Call.disciplined (st : State) : Call → Prop
  | Call.register socket =>
    st.deviceManager.CreateSocket.1 ≠ 0 ∨ ¬ inSocketSet st.socketSet_ socket
  | Call.listen socket _ => ∃ handle, HashMap.find st.sockets_ socket = some handle ∧ handle ≠ 0
  | Call.unregister _ => True

/-- Every call of a sequence starting in `st` follows the usage discipline. -/
def Disciplined : State → List Call → Prop
  | _, [] => True
  | st, c :: cs => c.disciplined st ∧ Disciplined (c.apply st) cs

/-- A state in which the registry is a map, the non-zero handles of the registry
identify live devices, and no two sockets share a non-zero handle. -/
structure RegistrySound (st : State) : Prop where
  /-- The registry has at most one entry per socket. -/
  nodup : (HashMap.keys st.sockets_).Nodup
  /-- A non-zero handle of the registry identifies a live device. -/
  live : ∀ socket handle, HashMap.find st.sockets_ socket = some handle → handle ≠ 0 →
    st.deviceManager.GetDevice handle = some handle
  /-- Two sockets with the same non-zero handle are the same socket. -/
  distinct : ∀ s1 s2 handle, HashMap.find st.sockets_ s1 = some handle →
    HashMap.find st.sockets_ s2 = some handle → handle ≠ 0 → s1 = s2

/-- Every socket of the Wait Set is registered with a non-zero handle. -/
def MembersRegistered (st : State) : Prop :=
  ∀ socket, inSocketSet st.socketSet_ socket →
    ∃ handle, HashMap.find st.sockets_ socket = some handle ∧ handle ≠ 0

/-- The states the module gets into from start-up by calls of its functions and
by completed passes of the handler task. -/
inductive Reachable (capacity : Nat) : State → Prop where
  /-- The state at start-up. -/
  | init : Reachable capacity (initialState capacity)
  /-- After `RegisterSocket`. -/
  | register (st : State) (socket : Socket_t) :
    Reachable capacity st → Reachable capacity (RegisterSocket socket st).2
  /-- After `ListenForSocketEvent`. -/
  | listen (st : State) (socket : Socket_t) (mask : Nat) :
    Reachable capacity st → Reachable capacity (ListenForSocketEvent socket mask st)
  /-- After `UnregisterAndCloseSocket`. -/
  | unregister (st : State) (socket : Socket_t) :
    Reachable capacity st → Reachable capacity (UnregisterAndCloseSocket socket st)
  /-- After a `ResetSocketFlags` that ran to its end. -/
  | reset (st st1 : State) (handle : Nat) :
    Reachable capacity st → ResetSocketFlags handle st = Outcome.ok st1 →
    Reachable capacity st1
  /-- After a pass of `SocketHandlerTask` that ran to its end. -/
  | pass (st st1 : State) (ready : Socket_t → Nat) :
    Reachable capacity st → (SocketHandlerPass ready st).state st = Outcome.ok st1 →
    Reachable capacity st1

/-- Every device holds flags among the event kinds only. -/
def FlagsBounded (dm : DeviceManager) : Prop := ∀ d ∈ dm.devices, d.2 < 16

/-- The second report brings no readiness that the first did not have. -/
def NoNewReadiness (first second : Socket_t → Nat) : Prop :=
  ∀ socket, second socket &&& first socket = second socket

/-! ## Bit masks -/

theorem clearBits_all_and (x : Nat) : clearBits x eSELECT_ALL &&& eSELECT_ALL = 0 := by
  apply Nat.eq_of_testBit_eq
  intro i
  have h15 : (15 : Nat) = 2 ^ 4 - 1 := by norm_num
  have h32 : (0xFFFFFFFF : Nat) = 2 ^ 32 - 1 := by norm_num
  simp only [clearBits, eSELECT_ALL, Nat.testBit_and, Nat.testBit_xor, Nat.zero_testBit]
  rw [h15, h32, Nat.testBit_two_pow_sub_one, Nat.testBit_two_pow_sub_one]
  by_cases h : i < 4
  · have : i < 32 := by omega
    simp [h, this]
  · simp [h]

theorem clearBits_all_of_lt (x : Nat) (h : x < 16) : clearBits x eSELECT_ALL = 0 := by
  revert x; decide

theorem isset_after_clr (r2 r b : Nat) (h : r2 &&& r = r2) :
    r2 &&& clearBits b (r &&& b &&& eSELECT_ALL) &&& eSELECT_ALL = 0 := by
  apply Nat.eq_of_testBit_eq
  intro i
  have h15 : (15 : Nat) = 2 ^ 4 - 1 := by norm_num
  have h32 : (0xFFFFFFFF : Nat) = 2 ^ 32 - 1 := by norm_num
  have hi : r2.testBit i = (r2.testBit i && r.testBit i) := by
    rw [← Nat.testBit_and, h]
  simp only [clearBits, eSELECT_ALL, Nat.testBit_and, Nat.testBit_xor, Nat.zero_testBit]
  rw [h15, h32, Nat.testBit_two_pow_sub_one, Nat.testBit_two_pow_sub_one]
  by_cases h4 : i < 4
  · have : i < 32 := by omega
    simp only [h4, this, decide_True, Bool.and_true]
    rw [hi]
    cases r2.testBit i <;> cases r.testBit i <;> cases b.testBit i <;> rfl
  · simp [h4]

/-! ## The hash map -/

namespace HashMap

theorem find_set_self (m : HashMap) (k v : Nat) : find (set m k v) k = some v := by
  induction m with
  | nil => simp [set, find]
  | cons e rest ih =>
    obtain ⟨k1, v1⟩ := e
    by_cases h : k1 = k
    · simp [set, find, h]
    · simp [set, find, h, ih]

theorem find_set_ne (m : HashMap) (k v k1 : Nat) (h : k1 ≠ k) :
    find (set m k v) k1 = find m k1 := by
  induction m with
  | nil => simp [set, find, Ne.symm h]
  | cons e rest ih =>
    obtain ⟨k2, v2⟩ := e
    by_cases h2 : k2 = k
    · subst h2
      simp [set, find, Ne.symm h]
    · simp [set, find, h2, ih]

theorem keys_set (m : HashMap) (k v : Nat) :
    keys (set m k v) = if k ∈ keys m then keys m else keys m ++ [k] := by
  induction m with
  | nil => simp [set, keys]
  | cons e rest ih =>
    obtain ⟨k2, v2⟩ := e
    by_cases h2 : k2 = k
    · subst h2
      simp [set, keys]
    · have ih1 : List.map Prod.fst (set rest k v) =
          if k ∈ List.map Prod.fst rest then List.map Prod.fst rest
          else List.map Prod.fst rest ++ [k] := ih
      simp only [set, h2, if_false, keys, List.map_cons, List.mem_cons, ih1]
      have h3 : ¬ k = k2 := fun h => h2 h.symm
      by_cases h4 : k ∈ List.map Prod.fst rest
      · simp [h4]
      · simp [h4, h3]

theorem nodup_keys_set (m : HashMap) (k v : Nat) (h : (keys m).Nodup) :
    (keys (set m k v)).Nodup := by
  rw [keys_set]
  by_cases hk : k ∈ keys m
  · simpa [hk] using h
  · simp only [hk, if_false]
    rw [List.nodup_append]
    refine ⟨h, List.nodup_singleton k, ?_⟩
    intro a ha hb
    simp at hb
    subst hb
    exact hk ha

theorem mem_keys_set (m : HashMap) (k v x : Nat) :
    x ∈ keys (set m k v) ↔ x = k ∨ x ∈ keys m := by
  rw [keys_set]
  by_cases hk : k ∈ keys m
  · simp only [hk, if_true]
    constructor
    · exact Or.inr
    · rintro (rfl | h)
      · exact hk
      · exact h
  · simp only [hk, if_false, List.mem_append, List.mem_singleton]
    tauto

theorem length_le_length_set (m : HashMap) (k v : Nat) : m.length ≤ (set m k v).length := by
  induction m with
  | nil => simp [set]
  | cons e rest ih =>
    obtain ⟨k2, v2⟩ := e
    by_cases h2 : k2 = k
    · simp [set, h2]
    · simp [set, h2, ih]

theorem find_isSome_iff (m : HashMap) (k : Nat) : (find m k).isSome ↔ k ∈ keys m := by
  induction m with
  | nil => simp [find, keys]
  | cons e rest ih =>
    obtain ⟨k2, v2⟩ := e
    by_cases h2 : k2 = k
    · simp [find, keys, h2]
    · have h3 : ¬ k = k2 := fun h => h2 h.symm
      have ih1 : (find rest k).isSome ↔ k ∈ List.map Prod.fst rest := ih
      simp [find, keys, h2, h3, ih1]

theorem find_of_mem (m : HashMap) (k v : Nat) (hn : (keys m).Nodup) (h : (k, v) ∈ m) :
    find m k = some v := by
  induction m with
  | nil => simp at h
  | cons e rest ih =>
    obtain ⟨k2, v2⟩ := e
    have hn1 : k2 ∉ List.map Prod.fst rest ∧ (List.map Prod.fst rest).Nodup := by
      simpa [keys] using hn
    rcases List.mem_cons.mp h with h1 | h1
    · cases h1
      simp [find]
    · have hk : k ∈ List.map Prod.fst rest := List.mem_map.mpr ⟨(k, v), h1, rfl⟩
      have h2 : k2 ≠ k := fun e => hn1.1 (e ▸ hk)
      simp [find, h2, ih hn1.2 h1]

theorem mem_of_find (m : HashMap) (k v : Nat) (h : find m k = some v) : (k, v) ∈ m := by
  induction m with
  | nil => simp [find] at h
  | cons e rest ih =>
    obtain ⟨k2, v2⟩ := e
    by_cases h2 : k2 = k
    · simp [find, h2] at h
      simp [h2, h]
    · simp [find, h2] at h
      exact List.mem_cons_of_mem _ (ih h)

theorem index_fst (m : HashMap) (k : Nat) : (index m k).1 = (find m k).getD 0 := by
  unfold index
  cases find m k <;> rfl

theorem find_index_ne (m : HashMap) (k k1 : Nat) (h : k1 ≠ k) :
    find (index m k).2 k1 = find m k1 := by
  unfold index
  cases hf : find m k with
  | none => simp [find_set_ne _ _ _ _ h]
  | some v => simp

theorem length_le_length_index (m : HashMap) (k : Nat) : m.length ≤ (index m k).2.length := by
  unfold index
  cases hf : find m k with
  | none => simpa using length_le_length_set m k 0
  | some v => simp

theorem mem_keys_index (m : HashMap) (k x : Nat) :
    x ∈ keys (index m k).2 ↔ x = k ∨ x ∈ keys m := by
  unfold index
  cases hf : find m k with
  | none => simpa using mem_keys_set m k 0 x
  | some v =>
    have hk : k ∈ keys m := (find_isSome_iff m k).mp (by simp [hf])
    simp only
    constructor
    · exact Or.inr
    · rintro (rfl | h)
      · exact hk
      · exact h

theorem nodup_keys_index (m : HashMap) (k : Nat) (h : (keys m).Nodup) :
    (keys (index m k).2).Nodup := by
  unfold index
  cases hf : find m k with
  | none => simpa using nodup_keys_set m k 0 h
  | some v => simpa using h

end HashMap

/-! ## The Wait Set -/

theorem selectBits_FD_SET (socket : Socket_t) (set : Option SocketSet_t) (mask x : Nat) :
    selectBits (FreeRTOS_FD_SET socket set mask) x =
      if set = none then 0
      else if x = socket then selectBits set socket ||| (mask &&& eSELECT_ALL)
      else selectBits set x := by
  cases set with
  | none => simp [FreeRTOS_FD_SET, selectBits]
  | some m =>
    by_cases hx : x = socket
    · subst hx
      simp [FreeRTOS_FD_SET, selectBits, HashMap.find_set_self]
    · simp [FreeRTOS_FD_SET, selectBits, HashMap.find_set_ne _ _ _ _ hx, hx]

theorem selectBits_FD_CLR (socket : Socket_t) (set : Option SocketSet_t) (mask x : Nat) :
    selectBits (FreeRTOS_FD_CLR socket set mask) x =
      if set = none then 0
      else if x = socket then clearBits (selectBits set socket) (mask &&& eSELECT_ALL)
      else selectBits set x := by
  cases set with
  | none => simp [FreeRTOS_FD_CLR, selectBits]
  | some m =>
    by_cases hx : x = socket
    · subst hx
      simp [FreeRTOS_FD_CLR, selectBits, HashMap.find_set_self]
    · simp [FreeRTOS_FD_CLR, selectBits, HashMap.find_set_ne _ _ _ _ hx, hx]

theorem selectBits_FD_CLR_ne (socket : Socket_t) (set : Option SocketSet_t) (mask x : Nat)
    (hx : x ≠ socket) :
    selectBits (FreeRTOS_FD_CLR socket set mask) x = selectBits set x := by
  rw [selectBits_FD_CLR]
  cases set with
  | none => simp [selectBits]
  | some m => simp [hx]

theorem not_inSocketSet_FD_CLR_all (socket : Socket_t) (set : Option SocketSet_t) :
    ¬ inSocketSet (FreeRTOS_FD_CLR socket set eSELECT_ALL) socket := by
  unfold inSocketSet
  rw [selectBits_FD_CLR]
  cases set with
  | none => simp
  | some m =>
    have h : eSELECT_ALL &&& eSELECT_ALL = eSELECT_ALL := Nat.and_self _
    simp [h, clearBits_all_and]

/-! ## The device manager -/

namespace DeviceManager

theorem GetDevice_zero (dm : DeviceManager) : dm.GetDevice 0 = none := by
  simp [GetDevice]

theorem GetDevice_eq_some (dm : DeviceManager) (handle device : Nat)
    (h : dm.GetDevice handle = some device) :
    device = handle ∧ handle ≠ 0 ∧ (dm.flags handle).isSome := by
  unfold GetDevice at h
  by_cases h0 : handle = 0
  · simp [h0] at h
  · by_cases h1 : (dm.flags handle).isSome
    · simp [h0, h1] at h
      exact ⟨h.symm, h0, h1⟩
    · simp [h0, h1] at h

theorem flags_devices_cons (devices : List (Nat × Nat)) (capacity h f x : Nat) :
    flags { devices := (h, f) :: devices, capacity := capacity } x =
      if h = x then some f else flags { devices := devices, capacity := capacity } x := by
  by_cases hx : h = x
  · simp [flags, List.find?, hx]
  · have hb : (h == x) = false := by simp [hx]
    simp [flags, List.find?, hb, hx]

theorem flags_map (devices : List (Nat × Nat)) (capacity device x : Nat) (g : Nat → Nat) :
    flags { devices := devices.map (fun d => if d.1 = device then (d.1, g d.2) else d),
            capacity := capacity } x =
      if x = device then (flags { devices := devices, capacity := capacity } x).map g
      else flags { devices := devices, capacity := capacity } x := by
  induction devices with
  | nil => simp [flags]
  | cons d rest ih =>
    obtain ⟨h, f⟩ := d
    by_cases hd : h = device
    · simp only [List.map_cons, hd, if_true]
      rw [flags_devices_cons, flags_devices_cons]
      by_cases hx : device = x
      · simp [hx]
      · have hx1 : ¬ x = device := fun e => hx e.symm
        simp only [hx, if_false]
        simpa [hd] using ih
    · simp only [List.map_cons, hd, if_false]
      rw [flags_devices_cons, flags_devices_cons]
      by_cases hx : h = x
      · have hx1 : ¬ x = device := fun e => hd (hx.trans e)
        simp [hx, hx1]
      · simp only [hx, if_false]
        exact ih

theorem flags_SetFlags (dm : DeviceManager) (device mask x : Nat) :
    (dm.SetFlags device mask).flags x =
      if x = device then (dm.flags x).map (fun f => f ||| mask) else dm.flags x := by
  obtain ⟨devices, capacity⟩ := dm
  exact flags_map devices capacity device x (fun f => f ||| mask)

theorem flags_ClearFlags (dm : DeviceManager) (device mask x : Nat) :
    (dm.ClearFlags device mask).flags x =
      if x = device then (dm.flags x).map (fun f => clearBits f mask) else dm.flags x := by
  obtain ⟨devices, capacity⟩ := dm
  exact flags_map devices capacity device x (fun f => clearBits f mask)

theorem GetDevice_SetFlags (dm : DeviceManager) (device mask x : Nat) :
    (dm.SetFlags device mask).GetDevice x = dm.GetDevice x := by
  unfold GetDevice
  rw [flags_SetFlags]
  by_cases hx : x = device
  · simp [hx]
  · simp [hx]

theorem GetDevice_ClearFlags (dm : DeviceManager) (device mask x : Nat) :
    (dm.ClearFlags device mask).GetDevice x = dm.GetDevice x := by
  unfold GetDevice
  rw [flags_ClearFlags]
  by_cases hx : x = device
  · simp [hx]
  · simp [hx]

theorem flags_filter (devices : List (Nat × Nat)) (capacity handle x : Nat) :
    flags { devices := devices.filter (fun d => d.1 != handle), capacity := capacity } x =
      if x = handle then none else flags { devices := devices, capacity := capacity } x := by
  induction devices with
  | nil => simp [flags]
  | cons d rest ih =>
    obtain ⟨h, f⟩ := d
    by_cases hd : h = handle
    · have hf : List.filter (fun d => d.1 != handle) ((h, f) :: rest) =
          List.filter (fun d => d.1 != handle) rest := by
        simp [List.filter, hd]
      rw [hf, ih, flags_devices_cons]
      by_cases hx : x = handle
      · simp [hx]
      · have hx1 : ¬ h = x := fun e => hx (e.symm.trans hd)
        simp [hx, hx1]
    · have hf : List.filter (fun d => d.1 != handle) ((h, f) :: rest) =
          (h, f) :: List.filter (fun d => d.1 != handle) rest := by
        have hb : (h != handle) = true := by simp [hd]
        simp [List.filter, hb]
      rw [hf, flags_devices_cons, flags_devices_cons, ih]
      by_cases hx : h = x
      · have hx1 : ¬ x = handle := fun e => hd (hx.trans e)
        simp [hx, hx1]
      · simp [hx]

theorem flags_RemoveDevice_some (dm : DeviceManager) (handle x : Nat) :
    (dm.RemoveDevice (some handle)).flags x = if x = handle then none else dm.flags x := by
  obtain ⟨devices, capacity⟩ := dm
  exact flags_filter devices capacity handle x

theorem le_foldr_max (l : List Nat) (x : Nat) (h : x ∈ l) : x ≤ l.foldr max 0 := by
  induction l with
  | nil => simp at h
  | cons a rest ih =>
    simp only [List.foldr_cons]
    rcases List.mem_cons.mp h with h1 | h1
    · subst h1
      exact le_max_left _ _
    · exact le_trans (ih h1) (le_max_right _ _)

theorem flags_isSome_mem (dm : DeviceManager) (x : Nat) (h : (dm.flags x).isSome) :
    x ∈ dm.devices.map Prod.fst := by
  unfold flags at h
  cases hf : List.find? (fun d => d.1 == x) dm.devices with
  | none => simp [hf] at h
  | some d =>
    have h1 := List.find?_some hf
    have h2 := List.mem_of_find?_eq_some hf
    simp at h1
    exact List.mem_map.mpr ⟨d, h2, h1⟩

theorem flags_freshHandle (dm : DeviceManager) : dm.flags dm.freshHandle = none := by
  cases hf : dm.flags dm.freshHandle with
  | none => rfl
  | some f =>
    have h1 := le_foldr_max _ _ (flags_isSome_mem dm dm.freshHandle (by simp [hf]))
    unfold freshHandle at h1
    omega

theorem freshHandle_ne_zero (dm : DeviceManager) : dm.freshHandle ≠ 0 := by
  unfold freshHandle; omega

theorem CreateSocket_cases (dm : DeviceManager) :
    (dm.CreateSocket.1 = 0 ∧ dm.CreateSocket.2 = dm) ∨
    (dm.CreateSocket.1 = dm.freshHandle ∧
      dm.CreateSocket.2 = { dm with devices := (dm.freshHandle, 0) :: dm.devices }) := by
  unfold CreateSocket
  by_cases h : dm.devices.length < dm.capacity
  · right; simp [h]
  · left; simp [h]

end DeviceManager

/-! ## Helper facts about the functions of the module -/

theorem GetDevice_RemoveDevice_GetDevice (dm : DeviceManager) (handle : Nat) :
    (dm.RemoveDevice (dm.GetDevice handle)).GetDevice handle = none := by
  cases hg : dm.GetDevice handle with
  | none => simpa [DeviceManager.RemoveDevice] using hg
  | some device =>
    obtain ⟨hd, h0, -⟩ := DeviceManager.GetDevice_eq_some dm handle device hg
    subst hd
    unfold DeviceManager.GetDevice
    rw [DeviceManager.flags_RemoveDevice_some]
    simp [h0]

theorem sockets_UnregisterAndCloseSocket (socket : Socket_t) (st : State) :
    (UnregisterAndCloseSocket socket st).sockets_ =
      HashMap.set (HashMap.index st.sockets_ socket).2 socket 0 := rfl

theorem sockets_ListenForSocketEvent (socket : Socket_t) (mask : Nat) (st : State) :
    (ListenForSocketEvent socket mask st).sockets_ = st.sockets_ := by
  unfold ListenForSocketEvent
  by_cases h : st.socketHandlerTask_ = none <;> simp [h]

theorem deviceManager_ListenForSocketEvent (socket : Socket_t) (mask : Nat) (st : State) :
    (ListenForSocketEvent socket mask st).deviceManager = st.deviceManager := by
  unfold ListenForSocketEvent
  by_cases h : st.socketHandlerTask_ = none <;> simp [h]

theorem ResetSocketFlags_ok (handle : Nat) (st st1 : State)
    (h : ResetSocketFlags handle st = Outcome.ok st1) :
    ∃ device, st.deviceManager.GetDevice handle = some device ∧
      st1 = { st with deviceManager := st.deviceManager.ClearFlags device eSELECT_ALL } := by
  unfold ResetSocketFlags at h
  cases hg : st.deviceManager.GetDevice handle with
  | none => simp [hg] at h
  | some device =>
    simp only [hg, Outcome.ok.injEq] at h
    exact ⟨device, rfl, h.symm⟩

theorem Pass_state_ok (p : Pass) (st st1 : State) (h : p.state st = Outcome.ok st1) :
    p.fault = none ∧
      st1 = { st with deviceManager := p.deviceManager, socketSet_ := p.socketSet_ } := by
  unfold Pass.state at h
  cases hf : p.fault with
  | some handle => simp [hf] at h
  | none =>
    simp only [hf, Outcome.ok.injEq] at h
    exact ⟨rfl, h.symm⟩

/-! ## Registration -/

/-- C1: `RegisterSocket(s)` returns exactly the handle that `CreateSocket`
produced, afterwards the registry maps `s` to that handle, every other socket's
entry is as before, and the Wait Set is untouched. -/
theorem RegisterSocket_stores_created_handle (st : State) (socket : Socket_t) :
    (RegisterSocket socket st).1 = st.deviceManager.CreateSocket.1 ∧
    (RegisterSocket socket st).2.deviceManager = st.deviceManager.CreateSocket.2 ∧
    HashMap.find (RegisterSocket socket st).2.sockets_ socket
      = some (RegisterSocket socket st).1 ∧
    (∀ other, other ≠ socket →
      HashMap.find (RegisterSocket socket st).2.sockets_ other
        = HashMap.find st.sockets_ other) ∧
    (RegisterSocket socket st).2.socketSet_ = st.socketSet_ ∧
    (RegisterSocket socket st).2.socketHandlerTask_ = st.socketHandlerTask_ := by
  refine ⟨rfl, rfl, ?_, ?_, rfl, rfl⟩
  · exact HashMap.find_set_self _ _ _
  · intro other h
    exact HashMap.find_set_ne _ _ _ _ h

/-- C2, as stated, fails: with a device manager that has no room, device creation
fails, and `RegisterSocket(7)` on the empty registry still inserts an entry for
socket `7`. -/
theorem RegisterSocket_failure_changes_registry :
    (initialState 0).deviceManager.CreateSocket.1 = 0 ∧
    HashMap.find (initialState 0).sockets_ 7 = none ∧
    (RegisterSocket 7 (initialState 0)).2.sockets_ = [(7, 0)] ∧
    (RegisterSocket 7 (initialState 0)).2.sockets_ ≠ (initialState 0).sockets_ := by
  decide

/-- C2, amended: if device creation fails, `RegisterSocket(s)` returns the
failure value `0` to the caller and sets the registry entry of `s` to `0`; every
other socket's entry, the device manager and the Wait Set are as before. -/
theorem RegisterSocket_failure_stores_none_handle (st : State) (socket : Socket_t)
    (hfail : st.deviceManager.CreateSocket.1 = 0) :
    (RegisterSocket socket st).1 = 0 ∧
    HashMap.find (RegisterSocket socket st).2.sockets_ socket = some 0 ∧
    (∀ other, other ≠ socket →
      HashMap.find (RegisterSocket socket st).2.sockets_ other
        = HashMap.find st.sockets_ other) ∧
    (RegisterSocket socket st).2.deviceManager = st.deviceManager ∧
    (RegisterSocket socket st).2.socketSet_ = st.socketSet_ := by
  have h1 : (RegisterSocket socket st).1 = 0 := hfail
  refine ⟨h1, ?_, ?_, ?_, rfl⟩
  · have h2 := HashMap.find_set_self st.sockets_ socket st.deviceManager.CreateSocket.1
    rw [hfail] at h2
    simpa [RegisterSocket, hfail] using h2
  · intro other h
    exact HashMap.find_set_ne _ _ _ _ h
  · rcases DeviceManager.CreateSocket_cases st.deviceManager with ⟨-, h3⟩ | ⟨h3, -⟩
    · exact h3
    · exact absurd (h3.symm.trans hfail) (DeviceManager.freshHandle_ne_zero _)

/-- C2, amended, at a device manager without room and socket `7`. -/
theorem RegisterSocket_failure_stores_none_handle_witness :
    (initialState 0).deviceManager.CreateSocket.1 = 0 ∧
    HashMap.find (RegisterSocket 7 (initialState 0)).2.sockets_ 7 = some 0 :=
  ⟨by decide,
   (RegisterSocket_failure_stores_none_handle (initialState 0) 7 (by decide)).2.1⟩

/-! ## Resetting the flags of an unknown handle -/

/-- C8, as stated, fails: for the handle `0`, which identifies no device,
`ResetSocketFlags` does not run to its end but dereferences the invalid
reference it got from `GetDevice`. -/
theorem ResetSocketFlags_unknown_handle_faults :
    (initialState 1).deviceManager.GetDevice 0 = none ∧
    ResetSocketFlags 0 (initialState 1) = Outcome.nullDevice 0 ∧
    ∀ st1, ResetSocketFlags 0 (initialState 1) ≠ Outcome.ok st1 := by
  refine ⟨by decide, by decide, ?_⟩
  intro st1 h
  have h1 : ResetSocketFlags 0 (initialState 1) = Outcome.nullDevice 0 := by decide
  rw [h1] at h
  cases h

/-- C8, amended: for every handle that identifies no device, `ResetSocketFlags`
dereferences the invalid reference returned by `GetDevice`; it does not run to
its end and changes no state. -/
theorem ResetSocketFlags_unknown_handle (st : State) (handle : Nat)
    (hnone : st.deviceManager.GetDevice handle = none) :
    ResetSocketFlags handle st = Outcome.nullDevice handle := by
  unfold ResetSocketFlags
  rw [hnone]

/-- C8, amended, at the handle `5` after one registration. -/
theorem ResetSocketFlags_unknown_handle_witness :
    (RegisterSocket 3 (initialState 4)).2.deviceManager.GetDevice 5 = none ∧
    ResetSocketFlags 5 (RegisterSocket 3 (initialState 4)).2 = Outcome.nullDevice 5 :=
  ⟨by decide, ResetSocketFlags_unknown_handle _ 5 (by decide)⟩

/-! ## The dispatch loop leaves the registry alone -/

theorem sockets_RegisterSocket (socket : Socket_t) (st : State) :
    (RegisterSocket socket st).2.sockets_
      = HashMap.set st.sockets_ socket (RegisterSocket socket st).1 := rfl

theorem length_le_UnregisterAndCloseSocket (socket : Socket_t) (st : State) :
    st.sockets_.length ≤ (UnregisterAndCloseSocket socket st).sockets_.length := by
  rw [sockets_UnregisterAndCloseSocket]
  exact le_trans (HashMap.length_le_length_index _ _) (HashMap.length_le_length_set _ _ _)

/-! ## Unregistration keeps the key -/

/-- C10: `UnregisterAndCloseSocket(s)` changes the registry only at key `s`,
which afterwards is present and mapped to `0`, also when `s` had no entry
before; and no function of the module decreases the number of keys of the
registry. -/
theorem UnregisterAndCloseSocket_keeps_tombstone (st : State) (socket : Socket_t) :
    HashMap.find (UnregisterAndCloseSocket socket st).sockets_ socket = some 0 ∧
    socket ∈ HashMap.keys (UnregisterAndCloseSocket socket st).sockets_ ∧
    (∀ other, other ≠ socket →
      HashMap.find (UnregisterAndCloseSocket socket st).sockets_ other
        = HashMap.find st.sockets_ other) ∧
    (HashMap.keys st.sockets_).length
      ≤ (HashMap.keys (UnregisterAndCloseSocket socket st).sockets_).length ∧
    (∀ s, (HashMap.keys st.sockets_).length
      ≤ (HashMap.keys (RegisterSocket s st).2.sockets_).length) ∧
    (∀ s mask, (HashMap.keys st.sockets_).length
      ≤ (HashMap.keys (ListenForSocketEvent s mask st).sockets_).length) ∧
    (∀ connect s address port, (HashMap.keys st.sockets_).length
      ≤ (HashMap.keys (SocketConnect connect s address port st).2.sockets_).length) ∧
    (∀ handle st1, ResetSocketFlags handle st = Outcome.ok st1 →
      (HashMap.keys st.sockets_).length ≤ (HashMap.keys st1.sockets_).length) ∧
    (∀ ready st1, (SocketHandlerPass ready st).state st = Outcome.ok st1 →
      (HashMap.keys st.sockets_).length ≤ (HashMap.keys st1.sockets_).length) := by
  have hzero : HashMap.find (UnregisterAndCloseSocket socket st).sockets_ socket = some 0 := by
    rw [sockets_UnregisterAndCloseSocket]
    exact HashMap.find_set_self _ _ _
  refine ⟨hzero, ?_, ?_, ?_, ?_, ?_, ?_, ?_, ?_⟩
  · exact (HashMap.find_isSome_iff _ _).mp (by simp [hzero])
  · intro other h
    rw [sockets_UnregisterAndCloseSocket, HashMap.find_set_ne _ _ _ _ h,
      HashMap.find_index_ne _ _ _ h]
  · simpa [HashMap.keys] using length_le_UnregisterAndCloseSocket socket st
  · intro s
    simpa [HashMap.keys, sockets_RegisterSocket] using HashMap.length_le_length_set st.sockets_ s _
  · intro s mask
    rw [sockets_ListenForSocketEvent]
  · intro connect s address port
    exact le_refl _
  · intro handle st1 h
    obtain ⟨device, -, h1⟩ := ResetSocketFlags_ok handle st st1 h
    rw [h1]
  · intro ready st1 h
    obtain ⟨-, h1⟩ := Pass_state_ok _ st st1 h
    rw [h1]

/-! ## Lazy start of the dispatch loop -/

theorem ListenForSocketEvent_started (socket : Socket_t) (mask : Nat) (st : State)
    (h : st.socketHandlerTask_ ≠ none) :
    ListenForSocketEvent socket mask st
      = { st with socketSet_ := FreeRTOS_FD_SET socket st.socketSet_ mask } := by
  unfold ListenForSocketEvent
  simp [h]

theorem listenAll_started (calls : List (Socket_t × Nat)) (st : State)
    (h : st.socketHandlerTask_ ≠ none) :
    (listenAll st calls).socketHandlerTask_ = st.socketHandlerTask_ ∧
    (listenAll st calls).socketSetsCreated = st.socketSetsCreated ∧
    (listenAll st calls).tasksCreated = st.tasksCreated := by
  induction calls generalizing st with
  | nil => exact ⟨rfl, rfl, rfl⟩
  | cons c cs ih =>
    have h1 := ListenForSocketEvent_started c.1 c.2 st h
    have h2 : (ListenForSocketEvent c.1 c.2 st).socketHandlerTask_ ≠ none := by
      rw [h1]; exact h
    obtain ⟨i1, i2, i3⟩ := ih (ListenForSocketEvent c.1 c.2 st) h2
    refine ⟨?_, ?_, ?_⟩
    · show (listenAll (ListenForSocketEvent c.1 c.2 st) cs).socketHandlerTask_ = _
      rw [i1, h1]
    · show (listenAll (ListenForSocketEvent c.1 c.2 st) cs).socketSetsCreated = _
      rw [i2, h1]
    · show (listenAll (ListenForSocketEvent c.1 c.2 st) cs).tasksCreated = _
      rw [i3, h1]

/-- C9: in a sequence of `ListenForSocketEvent` calls from the initial state the
first call creates the Wait Set and starts the task; after any non-empty
sequence exactly one Wait Set and one task have been created, and a further call
creates neither and only adds the socket and mask to the existing Wait Set. -/
theorem ListenForSocketEvent_starts_once (capacity : Nat) (calls : List (Socket_t × Nat))
    (hne : calls ≠ []) :
    (listenAll (initialState capacity) calls).socketSetsCreated = 1 ∧
    (listenAll (initialState capacity) calls).tasksCreated = 1 ∧
    (listenAll (initialState capacity) calls).socketHandlerTask_ = some 1 ∧
    (listenAll (initialState capacity) calls).socketSet_ ≠ none ∧
    (listenAll (initialState capacity) (calls.take 1)).socketSetsCreated = 1 ∧
    (listenAll (initialState capacity) (calls.take 1)).tasksCreated = 1 ∧
    ∀ socket mask,
      ListenForSocketEvent socket mask (listenAll (initialState capacity) calls)
        = { listenAll (initialState capacity) calls with
            socketSet_ := FreeRTOS_FD_SET socket
              (listenAll (initialState capacity) calls).socketSet_ mask } := by
  cases calls with
  | nil => exact absurd rfl hne
  | cons c cs =>
    have hfirst : (ListenForSocketEvent c.1 c.2 (initialState capacity)).socketHandlerTask_
        = some 1 := rfl
    have hstarted : (ListenForSocketEvent c.1 c.2 (initialState capacity)).socketHandlerTask_
        ≠ none := by rw [hfirst]; simp
    obtain ⟨i1, i2, i3⟩ := listenAll_started cs _ hstarted
    have hrun : listenAll (initialState capacity) (c :: cs)
        = listenAll (ListenForSocketEvent c.1 c.2 (initialState capacity)) cs := rfl
    have hset : ∀ (l : List (Socket_t × Nat)) (st : State), st.socketSet_ ≠ none →
        (listenAll st l).socketSet_ ≠ none := by
      intro l
      induction l with
      | nil => intro st h; exact h
      | cons d ds ih =>
        intro st h
        apply ih
        unfold ListenForSocketEvent
        by_cases ht : st.socketHandlerTask_ = none
        · simp [ht, FreeRTOS_FD_SET]
        · cases hs : st.socketSet_ with
          | none => exact absurd hs h
          | some m => simp [ht, hs, FreeRTOS_FD_SET]
    refine ⟨?_, ?_, ?_, ?_, rfl, rfl, ?_⟩
    · rw [hrun, i2]; rfl
    · rw [hrun, i3]; rfl
    · rw [hrun, i1]; rfl
    · rw [hrun]
      apply hset
      simp [ListenForSocketEvent, initialState, FreeRTOS_FD_SET]
    · intro socket mask
      apply ListenForSocketEvent_started
      rw [hrun, i1]
      exact hstarted

/-- C9 at two calls for the sockets `4` and `5`. -/
theorem ListenForSocketEvent_starts_once_witness :
    [((4 : Socket_t), 1), (5, 2)] ≠ [] ∧
    (listenAll (initialState 2) [(4, 1), (5, 2)]).socketSetsCreated = 1 ∧
    (listenAll (initialState 2) [(4, 1), (5, 2)]).tasksCreated = 1 :=
  ⟨by decide,
   (ListenForSocketEvent_starts_once 2 [(4, 1), (5, 2)] (by decide)).1,
   (ListenForSocketEvent_starts_once 2 [(4, 1), (5, 2)] (by decide)).2.1⟩

/-! ## Membership in the Wait Set along the calls -/

theorem inSocketSet_ListenForSocketEvent (socket : Socket_t) (mask : Nat) (st : State)
    (x : Socket_t) (h : inSocketSet (ListenForSocketEvent socket mask st).socketSet_ x) :
    x = socket ∨ inSocketSet st.socketSet_ x := by
  by_cases hx : x = socket
  · exact Or.inl hx
  · right
    unfold inSocketSet at h ⊢
    unfold ListenForSocketEvent at h
    by_cases ht : st.socketHandlerTask_ = none
    · simp only [ht, if_true] at h
      rw [selectBits_FD_SET] at h
      simp [hx, selectBits, HashMap.find] at h
    · simp only [ht, if_false] at h
      rw [selectBits_FD_SET] at h
      cases hs : st.socketSet_ with
      | none => simp [hs] at h
      | some m =>
        simp only [hs, hx, if_false] at h
        simpa using h

theorem inSocketSet_UnregisterAndCloseSocket (socket : Socket_t) (st : State)
    (x : Socket_t) (h : inSocketSet (UnregisterAndCloseSocket socket st).socketSet_ x) :
    x ≠ socket ∧ inSocketSet st.socketSet_ x := by
  have hset : (UnregisterAndCloseSocket socket st).socketSet_
      = FreeRTOS_FD_CLR socket st.socketSet_ eSELECT_ALL := rfl
  rw [hset] at h
  by_cases hx : x = socket
  · subst hx
    exact absurd h (not_inSocketSet_FD_CLR_all _ _)
  · refine ⟨hx, ?_⟩
    unfold inSocketSet at h ⊢
    rw [selectBits_FD_CLR_ne _ _ _ _ hx] at h
    exact h

theorem mem_keys_UnregisterAndCloseSocket (socket : Socket_t) (st : State) (x : Socket_t) :
    x ∈ HashMap.keys (UnregisterAndCloseSocket socket st).sockets_ ↔
      x = socket ∨ x ∈ HashMap.keys st.sockets_ := by
  rw [sockets_UnregisterAndCloseSocket, HashMap.mem_keys_set, HashMap.mem_keys_index]
  tauto

theorem nodup_keys_UnregisterAndCloseSocket (socket : Socket_t) (st : State)
    (h : (HashMap.keys st.sockets_).Nodup) :
    (HashMap.keys (UnregisterAndCloseSocket socket st).sockets_).Nodup := by
  rw [sockets_UnregisterAndCloseSocket]
  exact HashMap.nodup_keys_set _ _ _ (HashMap.nodup_keys_index _ _ h)

/-! ## The registry invariant -/

theorem RegistryInvariant_apply (c : Call) (st : State) (hinv : RegistryInvariant st)
    (hc : c.hasEntry st) : RegistryInvariant (c.apply st) := by
  obtain ⟨hn, hm⟩ := hinv
  cases c with
  | register socket =>
    refine ⟨HashMap.nodup_keys_set _ _ _ hn, ?_⟩
    intro x hx
    exact (HashMap.mem_keys_set _ _ _ _).mpr (Or.inr (hm x hx))
  | listen socket mask =>
    have hs := sockets_ListenForSocketEvent socket mask st
    refine ⟨?_, ?_⟩
    · show (HashMap.keys (ListenForSocketEvent socket mask st).sockets_).Nodup
      rw [hs]; exact hn
    · intro x hx
      show x ∈ HashMap.keys (ListenForSocketEvent socket mask st).sockets_
      rw [hs]
      rcases inSocketSet_ListenForSocketEvent socket mask st x hx with h1 | h1
      · rw [h1]; exact hc
      · exact hm x h1
  | unregister socket =>
    refine ⟨nodup_keys_UnregisterAndCloseSocket socket st hn, ?_⟩
    intro x hx
    obtain ⟨-, h2⟩ := inSocketSet_UnregisterAndCloseSocket socket st x hx
    exact (mem_keys_UnregisterAndCloseSocket socket st x).mpr (Or.inr (hm x h2))

theorem RegistryInvariant_run (calls : List Call) (st : State) (hinv : RegistryInvariant st)
    (hc : ListenOnEntries st calls) : RegistryInvariant (run st calls) := by
  induction calls generalizing st with
  | nil => exact hinv
  | cons c cs ih => exact ih (c.apply st) (RegistryInvariant_apply c st hinv hc.1) hc.2

/-- C3, as stated, fails: from the empty initial state the single call
`ListenForSocketEvent(1, 1)` puts socket `1` into the Wait Set although the
registry has no entry for it. -/
theorem listen_before_register_breaks_invariant :
    inSocketSet (run (initialState 1) [Call.listen 1 1]).socketSet_ 1 ∧
    1 ∉ HashMap.keys (run (initialState 1) [Call.listen 1 1]).sockets_ ∧
    ¬ RegistryInvariant (run (initialState 1) [Call.listen 1 1]) := by
  have h1 : inSocketSet (run (initialState 1) [Call.listen 1 1]).socketSet_ 1 := by decide
  have h2 : 1 ∉ HashMap.keys (run (initialState 1) [Call.listen 1 1]).sockets_ := by decide
  exact ⟨h1, h2, fun h => h2 (h.2 1 h1)⟩

/-- C3, amended: from the empty initial state, after every finite sequence of
`RegisterSocket`, `ListenForSocketEvent` and `UnregisterAndCloseSocket` calls in
which each `ListenForSocketEvent` is called for a socket that has a registry
entry at that time, the registry holds at most one entry per socket and every
socket of the Wait Set has an entry in the registry. -/
theorem registry_invariant_of_listen_on_entries (capacity : Nat) (calls : List Call)
    (hcalls : ListenOnEntries (initialState capacity) calls) :
    (HashMap.keys (run (initialState capacity) calls).sockets_).Nodup ∧
    ∀ socket, inSocketSet (run (initialState capacity) calls).socketSet_ socket →
      socket ∈ HashMap.keys (run (initialState capacity) calls).sockets_ := by
  have hinit : RegistryInvariant (initialState capacity) := by
    refine ⟨by simp [initialState, HashMap.keys], ?_⟩
    intro x hx
    simp [inSocketSet, initialState, selectBits] at hx
  exact RegistryInvariant_run calls _ hinit hcalls

/-- C3, amended, at the calls register, listen, unregister, listen on socket
`1`. -/
theorem registry_invariant_of_listen_on_entries_witness :
    ListenOnEntries (initialState 2)
      [Call.register 1, Call.listen 1 1, Call.unregister 1, Call.listen 1 2] ∧
    (∀ socket,
      inSocketSet (run (initialState 2)
        [Call.register 1, Call.listen 1 1, Call.unregister 1, Call.listen 1 2]).socketSet_
        socket →
      socket ∈ HashMap.keys (run (initialState 2)
        [Call.register 1, Call.listen 1 1, Call.unregister 1, Call.listen 1 2]).sockets_) :=
  ⟨by simp [ListenOnEntries, Call.hasEntry, Call.apply, RegisterSocket, ListenForSocketEvent,
      UnregisterAndCloseSocket, HashMap.keys, HashMap.set, HashMap.index, HashMap.find,
      initialState, DeviceManager.CreateSocket],
   (registry_invariant_of_listen_on_entries 2
      [Call.register 1, Call.listen 1 1, Call.unregister 1, Call.listen 1 2]
      (by simp [ListenOnEntries, Call.hasEntry, Call.apply, RegisterSocket, ListenForSocketEvent,
        UnregisterAndCloseSocket, HashMap.keys, HashMap.set, HashMap.index, HashMap.find,
        initialState, DeviceManager.CreateSocket])).2⟩

/-! ## Device flags stay within the event kinds -/

theorem FD_ISSET_lt (ready : Socket_t → Nat) (socket : Socket_t) (set : Option SocketSet_t) :
    FreeRTOS_FD_ISSET ready socket set < 16 := by
  have h : FreeRTOS_FD_ISSET ready socket set ≤ 15 := Nat.and_le_right
  omega

theorem FlagsBounded_CreateSocket (dm : DeviceManager) (h : FlagsBounded dm) :
    FlagsBounded dm.CreateSocket.2 := by
  rcases DeviceManager.CreateSocket_cases dm with ⟨-, h1⟩ | ⟨-, h1⟩
  · rw [h1]; exact h
  · rw [h1]
    intro d hd
    rcases List.mem_cons.mp hd with h2 | h2
    · rw [h2]; show (0 : Nat) < 16; decide
    · exact h d h2

theorem FlagsBounded_RemoveDevice (dm : DeviceManager) (device : Option Nat)
    (h : FlagsBounded dm) : FlagsBounded (dm.RemoveDevice device) := by
  cases device with
  | none => exact h
  | some handle =>
    intro d hd
    exact h d (List.mem_of_mem_filter hd)

theorem FlagsBounded_SetFlags (dm : DeviceManager) (device mask : Nat)
    (h : FlagsBounded dm) (hm : mask < 16) : FlagsBounded (dm.SetFlags device mask) := by
  intro d hd
  obtain ⟨e, he, hde⟩ := List.mem_map.mp hd
  by_cases hc : e.1 = device
  · simp only [hc, if_true] at hde
    rw [← hde]
    exact Nat.or_lt_two_pow (n := 4) (h e he) hm
  · simp only [hc, if_false] at hde
    rw [← hde]; exact h e he

theorem FlagsBounded_ClearFlags (dm : DeviceManager) (device mask : Nat)
    (h : FlagsBounded dm) : FlagsBounded (dm.ClearFlags device mask) := by
  intro d hd
  obtain ⟨e, he, hde⟩ := List.mem_map.mp hd
  by_cases hc : e.1 = device
  · simp only [hc, if_true] at hde
    rw [← hde]
    exact lt_of_le_of_lt Nat.and_le_left (h e he)
  · simp only [hc, if_false] at hde
    rw [← hde]; exact h e he

theorem FlagsBounded_dispatch (ready : Socket_t → Nat) (entries : List (Socket_t × Nat))
    (p : Pass) (h : FlagsBounded p.deviceManager) :
    FlagsBounded (dispatch ready entries p).deviceManager := by
  induction entries generalizing p with
  | nil => exact h
  | cons e rest ih =>
    obtain ⟨socket, handle⟩ := e
    unfold dispatch
    by_cases he : FreeRTOS_FD_ISSET ready socket p.socketSet_ = 0
    · simp only [he, ne_eq, not_true_eq_false, if_false]
      exact ih p h
    · simp only [he, ne_eq, not_false_eq_true, if_true]
      cases hg : p.deviceManager.GetDevice handle with
      | none => exact h
      | some device =>
        apply ih
        exact FlagsBounded_SetFlags _ _ _ h (FD_ISSET_lt _ _ _)

theorem FlagsBounded_SocketHandlerPass (ready : Socket_t → Nat) (st : State)
    (h : FlagsBounded st.deviceManager) :
    FlagsBounded (SocketHandlerPass ready st).deviceManager := by
  unfold SocketHandlerPass
  by_cases hs : FreeRTOS_select ready st.socketSet_ = 0
  · simpa [hs] using h
  · simp only [hs, ne_eq, not_false_eq_true, if_true]
    exact FlagsBounded_dispatch _ _ _ h

theorem FlagsBounded_of_Reachable (capacity : Nat) (st : State)
    (h : Reachable capacity st) : FlagsBounded st.deviceManager := by
  induction h with
  | init => intro d hd; simp [initialState] at hd
  | register st socket _ ih => exact FlagsBounded_CreateSocket _ ih
  | listen st socket mask _ ih =>
    rw [deviceManager_ListenForSocketEvent]; exact ih
  | unregister st socket _ ih => exact FlagsBounded_RemoveDevice _ _ ih
  | reset st st1 handle _ hok ih =>
    obtain ⟨device, -, h1⟩ := ResetSocketFlags_ok handle st st1 hok
    rw [h1]
    exact FlagsBounded_ClearFlags _ _ _ ih
  | pass st st1 ready _ hok ih =>
    obtain ⟨-, h1⟩ := Pass_state_ok _ st st1 hok
    rw [h1]
    exact FlagsBounded_SocketHandlerPass ready st ih

theorem flags_lt_of_FlagsBounded (dm : DeviceManager) (handle f : Nat)
    (h : FlagsBounded dm) (hf : dm.flags handle = some f) : f < 16 := by
  unfold DeviceManager.flags at hf
  cases hd : List.find? (fun d => d.1 == handle) dm.devices with
  | none => simp [hd] at hf
  | some d =>
    simp only [hd, Option.map_some', Option.some.injEq] at hf
    rw [← hf]
    exact h d (List.mem_of_find?_eq_some hd)

/-- C7: in every reachable state and for every handle of an existing device,
`ResetSocketFlags` runs to its end, leaves that device's accumulated flags at
`0`, and leaves the flags of every other device, the registry and the Wait Set
as they were. -/
theorem ResetSocketFlags_clears_that_device_only (capacity : Nat) (st : State)
    (hreach : Reachable capacity st) (handle device : Nat)
    (hdev : st.deviceManager.GetDevice handle = some device) :
    ∃ st1, ResetSocketFlags handle st = Outcome.ok st1 ∧
      st1.deviceManager.flags handle = some 0 ∧
      (∀ other, other ≠ handle →
        st1.deviceManager.flags other = st.deviceManager.flags other) ∧
      st1.sockets_ = st.sockets_ ∧
      st1.socketSet_ = st.socketSet_ ∧
      st1.socketHandlerTask_ = st.socketHandlerTask_ := by
  obtain ⟨hd, -, hsome⟩ := DeviceManager.GetDevice_eq_some _ _ _ hdev
  subst hd
  refine ⟨{ st with deviceManager := st.deviceManager.ClearFlags device eSELECT_ALL },
    ?_, ?_, ?_, rfl, rfl, rfl⟩
  · unfold ResetSocketFlags
    rw [hdev]
  · show (st.deviceManager.ClearFlags device eSELECT_ALL).flags device = some 0
    rw [DeviceManager.flags_ClearFlags]
    cases hf : st.deviceManager.flags device with
    | none => simp [hf] at hsome
    | some f =>
      have hlt := flags_lt_of_FlagsBounded _ _ _ (FlagsBounded_of_Reachable capacity st hreach) hf
      simp [clearBits_all_of_lt f hlt]
  · intro other hother
    show (st.deviceManager.ClearFlags device eSELECT_ALL).flags other = _
    rw [DeviceManager.flags_ClearFlags]
    simp [hother]

/-- C7 at the device of socket `3` after its readiness has been forwarded. -/
theorem ResetSocketFlags_clears_that_device_only_witness :
    (SocketHandlerPass (fun _ => 1)
        (ListenForSocketEvent 3 1 (RegisterSocket 3 (initialState 4)).2)).deviceManager.flags 1
      = some 1 ∧
    ∃ st1,
      ResetSocketFlags 1
        { ListenForSocketEvent 3 1 (RegisterSocket 3 (initialState 4)).2 with
          deviceManager := (SocketHandlerPass (fun _ => 1)
            (ListenForSocketEvent 3 1 (RegisterSocket 3 (initialState 4)).2)).deviceManager,
          socketSet_ := (SocketHandlerPass (fun _ => 1)
            (ListenForSocketEvent 3 1 (RegisterSocket 3 (initialState 4)).2)).socketSet_ }
        = Outcome.ok st1 ∧
      st1.deviceManager.flags 1 = some 0 := by
  refine ⟨by decide, ?_⟩
  obtain ⟨st1, h1, h2, -⟩ := ResetSocketFlags_clears_that_device_only 4 _
    (Reachable.pass _ _ (fun _ => 1)
      (Reachable.listen _ 3 1 (Reachable.register _ 3 Reachable.init)) rfl) 1 1 (by decide)
  exact ⟨st1, h1, h2⟩

/-! ## How a pass changes the Wait Set -/

theorem and_eSELECT_ALL_idem (x : Nat) : x &&& eSELECT_ALL &&& eSELECT_ALL = x &&& eSELECT_ALL := by
  rw [Nat.and_assoc, Nat.and_self]

theorem clearBits_sub (b m : Nat) : clearBits b m &&& b = clearBits b m := by
  unfold clearBits
  rw [Nat.and_comm, ← Nat.and_assoc, Nat.and_self]

theorem and_sub_trans (a b c : Nat) (h1 : a &&& b = a) (h2 : b &&& c = b) : a &&& c = a := by
  calc a &&& c = (a &&& b) &&& c := by rw [h1]
    _ = a &&& (b &&& c) := Nat.and_assoc _ _ _
    _ = a := by rw [h2, h1]

theorem and_all_ne_zero_of_sub (a b : Nat) (h : a &&& b = a) (ha : a &&& eSELECT_ALL ≠ 0) :
    b &&& eSELECT_ALL ≠ 0 := by
  intro hb
  apply ha
  calc a &&& eSELECT_ALL = (a &&& b) &&& eSELECT_ALL := by rw [h]
    _ = a &&& (b &&& eSELECT_ALL) := Nat.and_assoc _ _ _
    _ = 0 := by rw [hb, Nat.and_zero]

theorem isset_zero_of_sub (r2 r bp bf : Nat) (h1 : r2 &&& r = r2) (h2 : bf &&& bp = bf)
    (h3 : r &&& bp &&& eSELECT_ALL = 0) : r2 &&& bf &&& eSELECT_ALL = 0 := by
  calc r2 &&& bf &&& eSELECT_ALL
      = (r2 &&& r) &&& (bf &&& bp) &&& eSELECT_ALL := by rw [h1, h2]
    _ = (r2 &&& bf) &&& (r &&& bp &&& eSELECT_ALL) := by
        ac_rfl
    _ = 0 := by rw [h3, Nat.and_zero]

theorem selectBits_FD_CLR_sub (socket : Socket_t) (set : Option SocketSet_t) (mask x : Nat) :
    selectBits (FreeRTOS_FD_CLR socket set mask) x &&& selectBits set x
      = selectBits (FreeRTOS_FD_CLR socket set mask) x := by
  rw [selectBits_FD_CLR]
  cases set with
  | none => simp
  | some m =>
    by_cases hx : x = socket
    · subst hx
      simp [clearBits_sub]
    · simp [hx]

theorem selectBits_dispatch_sub (ready : Socket_t → Nat) (entries : List (Socket_t × Nat))
    (p : Pass) (x : Socket_t) :
    selectBits (dispatch ready entries p).socketSet_ x &&& selectBits p.socketSet_ x
      = selectBits (dispatch ready entries p).socketSet_ x := by
  induction entries generalizing p with
  | nil => exact Nat.and_self _
  | cons e rest ih =>
    obtain ⟨socket, handle⟩ := e
    unfold dispatch
    by_cases he : FreeRTOS_FD_ISSET ready socket p.socketSet_ = 0
    · simp only [he, ne_eq, not_true_eq_false, if_false]
      exact ih p
    · simp only [he, ne_eq, not_false_eq_true, if_true]
      cases hg : p.deviceManager.GetDevice handle with
      | none => exact Nat.and_self _
      | some device =>
        exact and_sub_trans _ _ _ (ih _) (selectBits_FD_CLR_sub _ _ _ _)

theorem inSocketSet_of_FD_ISSET (ready : Socket_t → Nat) (socket : Socket_t)
    (set : Option SocketSet_t) (h : FreeRTOS_FD_ISSET ready socket set ≠ 0) :
    inSocketSet set socket := by
  unfold inSocketSet
  intro h0
  apply h
  unfold FreeRTOS_FD_ISSET
  rw [Nat.and_assoc, h0, Nat.and_zero]

theorem GetDevice_dispatch (ready : Socket_t → Nat) (entries : List (Socket_t × Nat))
    (p : Pass) (x : Nat) :
    (dispatch ready entries p).deviceManager.GetDevice x = p.deviceManager.GetDevice x := by
  induction entries generalizing p with
  | nil => rfl
  | cons e rest ih =>
    obtain ⟨socket, handle⟩ := e
    unfold dispatch
    by_cases he : FreeRTOS_FD_ISSET ready socket p.socketSet_ = 0
    · simp only [he, ne_eq, not_true_eq_false, if_false]
      exact ih p
    · simp only [he, ne_eq, not_false_eq_true, if_true]
      cases hg : p.deviceManager.GetDevice handle with
      | none => rfl
      | some device =>
        simp only
        rw [ih]
        exact DeviceManager.GetDevice_SetFlags _ _ _ _

/-- Every `SetFlags` call of the loop is made for an entry of the registry whose
socket is in the Wait Set. -/
theorem forwarded_dispatch (ready : Socket_t → Nat) (entries : List (Socket_t × Nat))
    (p : Pass) (c : Nat × Nat) (hc : c ∈ (dispatch ready entries p).forwarded) :
    c ∈ p.forwarded ∨ ∃ socket, (socket, c.1) ∈ entries ∧ inSocketSet p.socketSet_ socket := by
  induction entries generalizing p with
  | nil => exact Or.inl hc
  | cons e rest ih =>
    obtain ⟨socket, handle⟩ := e
    unfold dispatch at hc
    by_cases he : FreeRTOS_FD_ISSET ready socket p.socketSet_ = 0
    · simp only [he, ne_eq, not_true_eq_false, if_false] at hc
      rcases ih p hc with h1 | ⟨s, h1, h2⟩
      · exact Or.inl h1
      · exact Or.inr ⟨s, List.mem_cons_of_mem _ h1, h2⟩
    · simp only [he, ne_eq, not_false_eq_true, if_true] at hc
      have hin := inSocketSet_of_FD_ISSET ready socket p.socketSet_ he
      cases hg : p.deviceManager.GetDevice handle with
      | none =>
        simp only [hg, List.mem_append, List.mem_singleton] at hc
        rcases hc with h1 | h1
        · exact Or.inl h1
        · right
          refine ⟨socket, ?_, hin⟩
          rw [h1]
          exact List.mem_cons_self _ _
      | some device =>
        simp only [hg] at hc
        rcases ih _ hc with h1 | ⟨s, h1, h2⟩
        · simp only [List.mem_append, List.mem_singleton] at h1
          rcases h1 with h1 | h1
          · exact Or.inl h1
          · right
            refine ⟨socket, ?_, hin⟩
            rw [h1]
            exact List.mem_cons_self _ _
        · right
          refine ⟨s, List.mem_cons_of_mem _ h1, ?_⟩
          exact and_all_ne_zero_of_sub _ _ (selectBits_FD_CLR_sub _ _ _ _) h2

/-- The loop dereferences no invalid device reference when every entry whose
socket is in the Wait Set has a live device. -/
theorem fault_dispatch (ready : Socket_t → Nat) (entries : List (Socket_t × Nat))
    (p : Pass) (hp : p.fault = none)
    (hlive : ∀ socket handle, (socket, handle) ∈ entries → inSocketSet p.socketSet_ socket →
      p.deviceManager.GetDevice handle ≠ none) :
    (dispatch ready entries p).fault = none := by
  induction entries generalizing p with
  | nil => exact hp
  | cons e rest ih =>
    obtain ⟨socket, handle⟩ := e
    unfold dispatch
    by_cases he : FreeRTOS_FD_ISSET ready socket p.socketSet_ = 0
    · simp only [he, ne_eq, not_true_eq_false, if_false]
      exact ih p hp (fun s h hm => hlive s h (List.mem_cons_of_mem _ hm))
    · simp only [he, ne_eq, not_false_eq_true, if_true]
      have hin := inSocketSet_of_FD_ISSET ready socket p.socketSet_ he
      cases hg : p.deviceManager.GetDevice handle with
      | none => exact absurd hg (hlive socket handle (List.mem_cons_self _ _) hin)
      | some device =>
        simp only
        refine ih _ hp ?_
        intro s h hm hs
        show (p.deviceManager.SetFlags device _).GetDevice h ≠ none
        rw [DeviceManager.GetDevice_SetFlags]
        exact hlive s h (List.mem_cons_of_mem _ hm)
          (and_all_ne_zero_of_sub _ _ (selectBits_FD_CLR_sub _ _ _ _) hs)

/-! ## Soundness of the registry in every reachable state -/

theorem RegistrySound_initialState (capacity : Nat) :
    RegistrySound (initialState capacity) := by
  refine ⟨by simp [initialState, HashMap.keys], ?_, ?_⟩
  · intro socket handle h
    simp [initialState, HashMap.find] at h
  · intro s1 s2 handle h
    simp [initialState, HashMap.find] at h

theorem find_RegisterSocket (socket : Socket_t) (st : State) (x : Socket_t) :
    HashMap.find (RegisterSocket socket st).2.sockets_ x =
      if x = socket then some st.deviceManager.CreateSocket.1 else HashMap.find st.sockets_ x := by
  by_cases hx : x = socket
  · subst hx
    simp only [if_true]
    exact HashMap.find_set_self _ _ _
  · simp only [hx, if_false]
    exact HashMap.find_set_ne _ _ _ _ hx

theorem find_UnregisterAndCloseSocket (socket : Socket_t) (st : State) (x : Socket_t) :
    HashMap.find (UnregisterAndCloseSocket socket st).sockets_ x =
      if x = socket then some 0 else HashMap.find st.sockets_ x := by
  rw [sockets_UnregisterAndCloseSocket]
  by_cases hx : x = socket
  · subst hx
    simp only [if_true]
    exact HashMap.find_set_self _ _ _
  · simp only [hx, if_false]
    rw [HashMap.find_set_ne _ _ _ _ hx, HashMap.find_index_ne _ _ _ hx]

theorem GetDevice_CreateSocket (dm : DeviceManager) (x : Nat)
    (h : dm.GetDevice x = some x) : dm.CreateSocket.2.GetDevice x = some x := by
  rcases DeviceManager.CreateSocket_cases dm with ⟨-, h1⟩ | ⟨-, h1⟩
  · rw [h1]; exact h
  · obtain ⟨-, h0, hs⟩ := DeviceManager.GetDevice_eq_some _ _ _ h
    rw [h1]
    unfold DeviceManager.GetDevice
    rw [DeviceManager.flags_devices_cons]
    by_cases hf : dm.freshHandle = x
    · simp [h0, hf]
    · simp only [h0, hf, if_false]
      have hs1 : (DeviceManager.flags { devices := dm.devices, capacity := dm.capacity } x).isSome
        := hs
      simp [hs1]

theorem GetDevice_CreateSocket_fresh (dm : DeviceManager) (h : dm.CreateSocket.1 ≠ 0) :
    dm.CreateSocket.2.GetDevice dm.CreateSocket.1 = some dm.CreateSocket.1 ∧
    dm.GetDevice dm.CreateSocket.1 = none := by
  rcases DeviceManager.CreateSocket_cases dm with ⟨h1, -⟩ | ⟨h1, h2⟩
  · exact absurd h1 h
  · rw [h1, h2]
    refine ⟨?_, ?_⟩
    · unfold DeviceManager.GetDevice
      rw [DeviceManager.flags_devices_cons]
      simp [DeviceManager.freshHandle_ne_zero]
    · unfold DeviceManager.GetDevice
      simp [DeviceManager.freshHandle_ne_zero, DeviceManager.flags_freshHandle]

theorem GetDevice_RemoveDevice_ne (dm : DeviceManager) (handle x : Nat) (hx : x ≠ handle) :
    (dm.RemoveDevice (dm.GetDevice handle)).GetDevice x = dm.GetDevice x := by
  cases hg : dm.GetDevice handle with
  | none => rfl
  | some device =>
    obtain ⟨hd, -, -⟩ := DeviceManager.GetDevice_eq_some _ _ _ hg
    subst hd
    unfold DeviceManager.GetDevice
    rw [DeviceManager.flags_RemoveDevice_some]
    simp [hx]

theorem RegistrySound_RegisterSocket (socket : Socket_t) (st : State)
    (hc : RegistrySound st) : RegistrySound (RegisterSocket socket st).2 := by
  have hdm : (RegisterSocket socket st).2.deviceManager = st.deviceManager.CreateSocket.2 := rfl
  refine ⟨HashMap.nodup_keys_set _ _ _ hc.nodup, ?_, ?_⟩
  · intro x handle hf h0
    rw [find_RegisterSocket] at hf
    rw [hdm]
    by_cases hx : x = socket
    · simp only [hx, if_true, Option.some.injEq] at hf
      rw [← hf] at h0 ⊢
      exact (GetDevice_CreateSocket_fresh _ h0).1
    · simp only [hx, if_false] at hf
      exact GetDevice_CreateSocket _ _ (hc.live x handle hf h0)
  · intro s1 s2 handle h1 h2 h0
    rw [find_RegisterSocket] at h1 h2
    by_cases hs1 : s1 = socket
    · by_cases hs2 : s2 = socket
      · rw [hs1, hs2]
      · simp only [hs1, if_true, Option.some.injEq] at h1
        simp only [hs2, if_false] at h2
        rw [← h1] at h0 h2
        have hl := hc.live s2 _ h2 h0
        rw [(GetDevice_CreateSocket_fresh _ h0).2] at hl
        cases hl
    · by_cases hs2 : s2 = socket
      · simp only [hs2, if_true, Option.some.injEq] at h2
        simp only [hs1, if_false] at h1
        rw [← h2] at h0 h1
        have hl := hc.live s1 _ h1 h0
        rw [(GetDevice_CreateSocket_fresh _ h0).2] at hl
        cases hl
      · simp only [hs1, if_false] at h1
        simp only [hs2, if_false] at h2
        exact hc.distinct s1 s2 handle h1 h2 h0

theorem RegistrySound_ListenForSocketEvent (socket : Socket_t) (mask : Nat) (st : State)
    (hc : RegistrySound st) : RegistrySound (ListenForSocketEvent socket mask st) := by
  have hs := sockets_ListenForSocketEvent socket mask st
  have hdm := deviceManager_ListenForSocketEvent socket mask st
  refine ⟨?_, ?_, ?_⟩
  · rw [hs]; exact hc.nodup
  · rw [hs, hdm]; exact hc.live
  · rw [hs]; exact hc.distinct

theorem RegistrySound_UnregisterAndCloseSocket (socket : Socket_t) (st : State)
    (hc : RegistrySound st) : RegistrySound (UnregisterAndCloseSocket socket st) := by
  have hdm : (UnregisterAndCloseSocket socket st).deviceManager
      = st.deviceManager.RemoveDevice
          (st.deviceManager.GetDevice ((HashMap.find st.sockets_ socket).getD 0)) := by
    show DeviceManager.RemoveDevice _ (DeviceManager.GetDevice _
      (HashMap.index st.sockets_ socket).1) = _
    rw [HashMap.index_fst]
  refine ⟨nodup_keys_UnregisterAndCloseSocket socket st hc.nodup, ?_, ?_⟩
  · intro x handle hf h0
    rw [find_UnregisterAndCloseSocket] at hf
    by_cases hx : x = socket
    · simp only [hx, if_true, Option.some.injEq] at hf
      exact absurd hf.symm h0
    · simp only [hx, if_false] at hf
      rw [hdm, GetDevice_RemoveDevice_ne]
      · exact hc.live x handle hf h0
      · intro heq
        cases hfs : HashMap.find st.sockets_ socket with
        | none =>
          rw [hfs] at heq
          exact h0 heq
        | some h1 =>
          rw [hfs] at heq
          have heq1 : h1 = handle := heq.symm
          rw [heq1] at hfs
          exact hx (hc.distinct x socket handle hf hfs h0)
  · intro s1 s2 handle h1 h2 h0
    rw [find_UnregisterAndCloseSocket] at h1 h2
    by_cases hs1 : s1 = socket
    · simp only [hs1, if_true, Option.some.injEq] at h1
      exact absurd h1.symm h0
    · by_cases hs2 : s2 = socket
      · simp only [hs2, if_true, Option.some.injEq] at h2
        exact absurd h2.symm h0
      · simp only [hs1, if_false] at h1
        simp only [hs2, if_false] at h2
        exact hc.distinct s1 s2 handle h1 h2 h0

theorem GetDevice_SocketHandlerPass (ready : Socket_t → Nat) (st : State) (x : Nat) :
    (SocketHandlerPass ready st).deviceManager.GetDevice x = st.deviceManager.GetDevice x := by
  unfold SocketHandlerPass
  by_cases hs : FreeRTOS_select ready st.socketSet_ = 0
  · simp only [hs, ne_eq, not_true_eq_false, if_false]
  · simp only [hs, ne_eq, not_false_eq_true, if_true]
    exact GetDevice_dispatch _ _ _ _

theorem RegistrySound_of_Reachable (capacity : Nat) (st : State)
    (h : Reachable capacity st) : RegistrySound st := by
  induction h with
  | init => exact RegistrySound_initialState capacity
  | register st socket _ ih => exact RegistrySound_RegisterSocket socket st ih
  | listen st socket mask _ ih => exact RegistrySound_ListenForSocketEvent socket mask st ih
  | unregister st socket _ ih => exact RegistrySound_UnregisterAndCloseSocket socket st ih
  | reset st st1 handle _ hok ih =>
    obtain ⟨device, -, h1⟩ := ResetSocketFlags_ok handle st st1 hok
    rw [h1]
    refine ⟨ih.nodup, ?_, ih.distinct⟩
    intro socket hdl hf h0
    show (st.deviceManager.ClearFlags device eSELECT_ALL).GetDevice hdl = some hdl
    rw [DeviceManager.GetDevice_ClearFlags]
    exact ih.live socket hdl hf h0
  | pass st st1 ready _ hok ih =>
    obtain ⟨-, h1⟩ := Pass_state_ok _ st st1 hok
    rw [h1]
    refine ⟨ih.nodup, ?_, ih.distinct⟩
    intro socket hdl hf h0
    show (SocketHandlerPass ready st).deviceManager.GetDevice hdl = some hdl
    rw [GetDevice_SocketHandlerPass]
    exact ih.live socket hdl hf h0

theorem Reachable_run (capacity : Nat) (calls : List Call) (st : State)
    (h : Reachable capacity st) : Reachable capacity (run st calls) := by
  induction calls generalizing st with
  | nil => exact h
  | cons c cs ih =>
    apply ih
    cases c with
    | register socket => exact Reachable.register st socket h
    | listen socket mask => exact Reachable.listen st socket mask h
    | unregister socket => exact Reachable.unregister st socket h

/-! ## Wait Set members along disciplined calls -/

theorem MembersRegistered_apply (c : Call) (st : State) (hm : MembersRegistered st)
    (hd : c.disciplined st) : MembersRegistered (c.apply st) := by
  cases c with
  | register socket =>
    intro x hx
    have hset : (RegisterSocket socket st).2.socketSet_ = st.socketSet_ := rfl
    show ∃ handle, HashMap.find (RegisterSocket socket st).2.sockets_ x = some handle ∧ handle ≠ 0
    have hx1 : inSocketSet st.socketSet_ x := hx
    by_cases hxs : x = socket
    · rcases hd with h0 | h0
      · refine ⟨st.deviceManager.CreateSocket.1, ?_, h0⟩
        rw [find_RegisterSocket]
        simp [hxs]
      · rw [hxs] at hx1
        exact absurd hx1 h0
    · obtain ⟨handle, h1, h2⟩ := hm x hx1
      refine ⟨handle, ?_, h2⟩
      rw [find_RegisterSocket]
      simpa [hxs] using h1
  | listen socket mask =>
    intro x hx
    show ∃ handle, HashMap.find (ListenForSocketEvent socket mask st).sockets_ x = some handle
      ∧ handle ≠ 0
    rw [sockets_ListenForSocketEvent]
    rcases inSocketSet_ListenForSocketEvent socket mask st x hx with h1 | h1
    · rw [h1]; exact hd
    · exact hm x h1
  | unregister socket =>
    intro x hx
    obtain ⟨hne, hin⟩ := inSocketSet_UnregisterAndCloseSocket socket st x hx
    obtain ⟨handle, h1, h2⟩ := hm x hin
    refine ⟨handle, ?_, h2⟩
    show HashMap.find (UnregisterAndCloseSocket socket st).sockets_ x = some handle
    rw [find_UnregisterAndCloseSocket]
    simpa [hne] using h1

theorem MembersRegistered_run (calls : List Call) (st : State) (hm : MembersRegistered st)
    (hd : Disciplined st calls) : MembersRegistered (run st calls) := by
  induction calls generalizing st with
  | nil => exact hm
  | cons c cs ih => exact ih (c.apply st) (MembersRegistered_apply c st hm hd.1) hd.2

theorem MembersRegistered_initialState (capacity : Nat) :
    MembersRegistered (initialState capacity) := by
  intro socket h
  simp [inSocketSet, initialState, selectBits] at h

/-- When the registry is sound and the Wait Set members are registered, every
registry entry whose socket is in the Wait Set has a non-zero handle that
identifies a live device. -/
theorem entry_live (st : State) (hc : RegistrySound st) (hm : MembersRegistered st)
    (socket : Socket_t) (handle : Nat) (hmem : (socket, handle) ∈ st.sockets_)
    (hin : inSocketSet st.socketSet_ socket) :
    handle ≠ 0 ∧ st.deviceManager.GetDevice handle = some handle := by
  have hf := HashMap.find_of_mem _ _ _ hc.nodup hmem
  obtain ⟨h1, hf1, h0⟩ := hm socket hin
  rw [hf] at hf1
  cases hf1
  exact ⟨h0, hc.live socket handle hf h0⟩

/-- A pass made when the registry is sound and the Wait Set members are
registered dereferences no invalid device reference, and each of its `SetFlags`
calls is made through a non-zero handle of a live device. -/
theorem SocketHandlerPass_of_MembersRegistered (ready : Socket_t → Nat) (st : State)
    (hc : RegistrySound st) (hm : MembersRegistered st) :
    (SocketHandlerPass ready st).fault = none ∧
    ∀ c ∈ (SocketHandlerPass ready st).forwarded,
      c.1 ≠ 0 ∧ st.deviceManager.GetDevice c.1 = some c.1 := by
  unfold SocketHandlerPass
  by_cases hs : FreeRTOS_select ready st.socketSet_ = 0
  · simp [hs]
  · simp only [hs, ne_eq, not_false_eq_true, if_true]
    refine ⟨?_, ?_⟩
    · apply fault_dispatch _ _ _ rfl
      intro socket handle hmem hin
      rw [(entry_live st hc hm socket handle hmem hin).2]
      simp
    · intro c hcm
      rcases forwarded_dispatch _ _ _ c hcm with h1 | ⟨socket, h1, h2⟩
      · simp at h1
      · exact entry_live st hc hm socket c.1 h1 h2

/-! ## No flags through the "none" handle -/

/-- C4, as stated, fails: after `RegisterSocket(1)`, `UnregisterAndCloseSocket(1)`
and `ListenForSocketEvent(1, 1)` the registry maps socket `1` to the handle `0`
and the socket is in the Wait Set; when the stack reports it ready, the pass
forwards the flags through the handle `0`. -/
theorem pass_forwards_through_none_handle :
    HashMap.find
      (run (initialState 1) [Call.register 1, Call.unregister 1, Call.listen 1 1]).sockets_ 1
      = some 0 ∧
    (SocketHandlerPass (fun _ => 1)
      (run (initialState 1) [Call.register 1, Call.unregister 1, Call.listen 1 1])).forwarded
      = [(0, 1)] ∧
    (SocketHandlerPass (fun _ => 1)
      (run (initialState 1) [Call.register 1, Call.unregister 1, Call.listen 1 1])).fault
      = some 0 := by
  decide

/-- C4, amended: in every state reached from the initial state by
`RegisterSocket`, `ListenForSocketEvent` and `UnregisterAndCloseSocket` calls
that follow the usage discipline, and for every readiness report, one pass of
`SocketHandlerTask` dereferences no invalid device reference and performs every
`SetFlags` on a live device looked up with a non-zero handle. -/
theorem pass_never_forwards_through_none_handle (capacity : Nat) (calls : List Call)
    (ready : Socket_t → Nat) (hcalls : Disciplined (initialState capacity) calls) :
    (SocketHandlerPass ready (run (initialState capacity) calls)).fault = none ∧
    ∀ c ∈ (SocketHandlerPass ready (run (initialState capacity) calls)).forwarded,
      c.1 ≠ 0 ∧
      (run (initialState capacity) calls).deviceManager.GetDevice c.1 = some c.1 :=
  SocketHandlerPass_of_MembersRegistered ready _
    (RegistrySound_of_Reachable capacity _ (Reachable_run capacity calls _ Reachable.init))
    (MembersRegistered_run calls _ (MembersRegistered_initialState capacity) hcalls)

/-- C4, amended, at the calls register, listen on socket `1`, register on socket
`2`, unregister socket `1`, with every socket reported readable. -/
theorem pass_never_forwards_through_none_handle_witness :
    Disciplined (initialState 2)
      [Call.register 1, Call.listen 1 1, Call.register 2, Call.listen 2 3,
       Call.unregister 1] ∧
    (SocketHandlerPass (fun _ => 1) (run (initialState 2)
      [Call.register 1, Call.listen 1 1, Call.register 2, Call.listen 2 3,
       Call.unregister 1])).forwarded = [(2, 1)] ∧
    (SocketHandlerPass (fun _ => 1) (run (initialState 2)
      [Call.register 1, Call.listen 1 1, Call.register 2, Call.listen 2 3,
       Call.unregister 1])).fault = none :=
  ⟨by simp [Disciplined, Call.disciplined, Call.apply, RegisterSocket, ListenForSocketEvent,
      UnregisterAndCloseSocket, HashMap.set, HashMap.index, HashMap.find, initialState,
      DeviceManager.CreateSocket, DeviceManager.freshHandle],
   by decide,
   (pass_never_forwards_through_none_handle 2
      [Call.register 1, Call.listen 1 1, Call.register 2, Call.listen 2 3, Call.unregister 1]
      (fun _ => 1)
      (by simp [Disciplined, Call.disciplined, Call.apply, RegisterSocket, ListenForSocketEvent,
        UnregisterAndCloseSocket, HashMap.set, HashMap.index, HashMap.find, initialState,
        DeviceManager.CreateSocket, DeviceManager.freshHandle])).1⟩

/-! ## What a pass does for one socket -/

theorem FD_ISSET_and_all (ready : Socket_t → Nat) (socket : Socket_t)
    (set : Option SocketSet_t) :
    FreeRTOS_FD_ISSET ready socket set &&& eSELECT_ALL = FreeRTOS_FD_ISSET ready socket set :=
  and_eSELECT_ALL_idem _

theorem socketSet_ne_none_of_FD_ISSET (ready : Socket_t → Nat) (socket : Socket_t)
    (set : Option SocketSet_t) (h : FreeRTOS_FD_ISSET ready socket set ≠ 0) : set ≠ none := by
  intro hs
  apply h
  rw [hs]
  simp [FreeRTOS_FD_ISSET, selectBits]

theorem selectBits_FD_CLR_self (ready : Socket_t → Nat) (socket : Socket_t)
    (set : Option SocketSet_t) (h : FreeRTOS_FD_ISSET ready socket set ≠ 0) :
    selectBits (FreeRTOS_FD_CLR socket set (FreeRTOS_FD_ISSET ready socket set)) socket
      = clearBits (selectBits set socket) (FreeRTOS_FD_ISSET ready socket set) := by
  rw [selectBits_FD_CLR, FD_ISSET_and_all]
  simp [socketSet_ne_none_of_FD_ISSET ready socket set h]

theorem FD_ISSET_FD_CLR_ne (ready : Socket_t → Nat) (socket x : Socket_t)
    (set : Option SocketSet_t) (mask : Nat) (hx : x ≠ socket) :
    FreeRTOS_FD_ISSET ready x (FreeRTOS_FD_CLR socket set mask)
      = FreeRTOS_FD_ISSET ready x set := by
  unfold FreeRTOS_FD_ISSET
  rw [selectBits_FD_CLR_ne _ _ _ _ hx]

/-- The loop leaves alone a socket that has no entry and a device that no entry
refers to. -/
theorem dispatch_untouched (ready : Socket_t → Nat) (entries : List (Socket_t × Nat))
    (p : Pass) (socket : Socket_t) (handle : Nat)
    (hs : socket ∉ entries.map Prod.fst)
    (hh : ∀ s h, (s, h) ∈ entries → h ≠ handle) :
    (dispatch ready entries p).deviceManager.flags handle = p.deviceManager.flags handle ∧
    selectBits (dispatch ready entries p).socketSet_ socket = selectBits p.socketSet_ socket ∧
    ∃ new, (dispatch ready entries p).forwarded = p.forwarded ++ new ∧
      new.filter (fun c => c.1 == handle) = [] := by
  induction entries generalizing p with
  | nil => exact ⟨rfl, rfl, [], by simp [dispatch], rfl⟩
  | cons e rest ih =>
    obtain ⟨s1, h1⟩ := e
    have hs1 : socket ≠ s1 := fun heq => hs (by simp [heq])
    have hsr : socket ∉ rest.map Prod.fst := fun hm => hs (by simp at hm ⊢; exact Or.inr hm)
    have hh1 : h1 ≠ handle := hh s1 h1 (List.mem_cons_self _ _)
    have hhr : ∀ s h, (s, h) ∈ rest → h ≠ handle :=
      fun s h hm => hh s h (List.mem_cons_of_mem _ hm)
    unfold dispatch
    by_cases he : FreeRTOS_FD_ISSET ready s1 p.socketSet_ = 0
    · simp only [he, ne_eq, not_true_eq_false, if_false]
      exact ih p hsr hhr
    · simp only [he, ne_eq, not_false_eq_true, if_true]
      cases hg : p.deviceManager.GetDevice h1 with
      | none =>
        refine ⟨rfl, rfl, [(h1, FreeRTOS_FD_ISSET ready s1 p.socketSet_)], rfl, ?_⟩
        have hb : (h1 == handle) = false := by simp [hh1]
        simp [List.filter, hb]
      | some device =>
        obtain ⟨hd, -, -⟩ := DeviceManager.GetDevice_eq_some _ _ _ hg
        subst hd
        simp only
        obtain ⟨i1, i2, new, i3, i4⟩ := ih
          { deviceManager := p.deviceManager.SetFlags device
              (FreeRTOS_FD_ISSET ready s1 p.socketSet_),
            socketSet_ := FreeRTOS_FD_CLR s1 p.socketSet_
              (FreeRTOS_FD_ISSET ready s1 p.socketSet_),
            forwarded := p.forwarded ++ [(device, FreeRTOS_FD_ISSET ready s1 p.socketSet_)],
            fault := p.fault } hsr hhr
        refine ⟨?_, ?_, (device, FreeRTOS_FD_ISSET ready s1 p.socketSet_) :: new, ?_, ?_⟩
        · rw [i1]
          show (p.deviceManager.SetFlags device _).flags handle = _
          rw [DeviceManager.flags_SetFlags]
          simp [Ne.symm hh1]
        · rw [i2]
          exact selectBits_FD_CLR_ne _ _ _ _ hs1
        · rw [i3]
          simp
        · have hb : (device == handle) = false := by simp [hh1]
          simp [List.filter, hb, i4]

/-- A loop that ran to its end has forwarded the ready mask of a socket to its
device and cleared it from the Wait Set, once. -/
theorem dispatch_serves (ready : Socket_t → Nat) (entries : List (Socket_t × Nat))
    (p : Pass) (socket : Socket_t) (handle : Nat)
    (hn : (entries.map Prod.fst).Nodup)
    (hmem : (socket, handle) ∈ entries)
    (hf : (dispatch ready entries p).fault = none)
    (hdist : ∀ s h, (s, h) ∈ entries → s ≠ socket → h ≠ handle)
    (hne : FreeRTOS_FD_ISSET ready socket p.socketSet_ ≠ 0) :
    (dispatch ready entries p).deviceManager.flags handle
      = (p.deviceManager.flags handle).map
          (fun f => f ||| FreeRTOS_FD_ISSET ready socket p.socketSet_) ∧
    selectBits (dispatch ready entries p).socketSet_ socket
      = clearBits (selectBits p.socketSet_ socket)
          (FreeRTOS_FD_ISSET ready socket p.socketSet_) ∧
    ∃ new, (dispatch ready entries p).forwarded = p.forwarded ++ new ∧
      new.filter (fun c => c.1 == handle)
        = [(handle, FreeRTOS_FD_ISSET ready socket p.socketSet_)] := by
  induction entries generalizing p with
  | nil => simp at hmem
  | cons e rest ih =>
    obtain ⟨s1, h1⟩ := e
    have hn1 : s1 ∉ rest.map Prod.fst ∧ (rest.map Prod.fst).Nodup := by
      simpa using hn
    have hdistr : ∀ s h, (s, h) ∈ rest → s ≠ socket → h ≠ handle :=
      fun s h hm => hdist s h (List.mem_cons_of_mem _ hm)
    by_cases hs : s1 = socket
    · -- the entry of the socket itself
      subst hs
      have hh : h1 = handle := by
        rcases List.mem_cons.mp hmem with h2 | h2
        · cases h2; rfl
        · exact absurd (List.mem_map.mpr ⟨(s1, handle), h2, rfl⟩) hn1.1
      subst hh
      have hrest : ∀ s h, (s, h) ∈ rest → h ≠ h1 := by
        intro s h hm
        apply hdistr s h hm
        intro heq
        exact hn1.1 (List.mem_map.mpr ⟨(s, h), hm, heq⟩)
      unfold dispatch at hf ⊢
      simp only [hne, ne_eq, not_false_eq_true, if_true] at hf ⊢
      cases hg : p.deviceManager.GetDevice h1 with
      | none => simp [hg] at hf
      | some device =>
        obtain ⟨hd, -, -⟩ := DeviceManager.GetDevice_eq_some _ _ _ hg
        subst hd
        simp only
        obtain ⟨i1, i2, new, i3, i4⟩ := dispatch_untouched ready rest
          { deviceManager := p.deviceManager.SetFlags device
              (FreeRTOS_FD_ISSET ready s1 p.socketSet_),
            socketSet_ := FreeRTOS_FD_CLR s1 p.socketSet_
              (FreeRTOS_FD_ISSET ready s1 p.socketSet_),
            forwarded := p.forwarded ++ [(device, FreeRTOS_FD_ISSET ready s1 p.socketSet_)],
            fault := p.fault } s1 device hn1.1 hrest
        refine ⟨?_, ?_, (device, FreeRTOS_FD_ISSET ready s1 p.socketSet_) :: new, ?_, ?_⟩
        · rw [i1]
          show (p.deviceManager.SetFlags device _).flags device = _
          rw [DeviceManager.flags_SetFlags]
          simp
        · rw [i2]
          exact selectBits_FD_CLR_self ready s1 p.socketSet_ hne
        · rw [i3]
          simp
        · simp [List.filter, i4]
    · -- another entry
      have hmemr : (socket, handle) ∈ rest := by
        rcases List.mem_cons.mp hmem with h2 | h2
        · cases h2; exact absurd rfl hs
        · exact h2
      have hh1 : h1 ≠ handle := hdist s1 h1 (List.mem_cons_self _ _) hs
      have hs' : socket ≠ s1 := fun heq => hs heq.symm
      unfold dispatch at hf ⊢
      by_cases he : FreeRTOS_FD_ISSET ready s1 p.socketSet_ = 0
      · simp only [he, ne_eq, not_true_eq_false, if_false] at hf ⊢
        exact ih p hn1.2 hmemr hf hdistr hne
      · simp only [he, ne_eq, not_false_eq_true, if_true] at hf ⊢
        cases hg : p.deviceManager.GetDevice h1 with
        | none => simp [hg] at hf
        | some device =>
          obtain ⟨hd, -, -⟩ := DeviceManager.GetDevice_eq_some _ _ _ hg
          subst hd
          simp only [hg] at hf
          simp only
          have hisset : FreeRTOS_FD_ISSET ready socket
              (FreeRTOS_FD_CLR s1 p.socketSet_ (FreeRTOS_FD_ISSET ready s1 p.socketSet_))
              = FreeRTOS_FD_ISSET ready socket p.socketSet_ :=
            FD_ISSET_FD_CLR_ne ready s1 socket p.socketSet_ _ hs'
          obtain ⟨i1, i2, new, i3, i4⟩ := ih
            { deviceManager := p.deviceManager.SetFlags device
                (FreeRTOS_FD_ISSET ready s1 p.socketSet_),
              socketSet_ := FreeRTOS_FD_CLR s1 p.socketSet_
                (FreeRTOS_FD_ISSET ready s1 p.socketSet_),
              forwarded := p.forwarded ++ [(device, FreeRTOS_FD_ISSET ready s1 p.socketSet_)],
              fault := p.fault } hn1.2 hmemr hf hdistr
            (by rw [hisset]; exact hne)
          simp only [hisset] at i1 i2 i4
          refine ⟨?_, ?_, (device, FreeRTOS_FD_ISSET ready s1 p.socketSet_) :: new, ?_, ?_⟩
          · rw [i1]
            show Option.map _ ((p.deviceManager.SetFlags device _).flags handle) = _
            rw [DeviceManager.flags_SetFlags]
            simp [Ne.symm hh1]
          · rw [i2]
            show clearBits (selectBits (FreeRTOS_FD_CLR s1 p.socketSet_ _) socket) _ = _
            rw [selectBits_FD_CLR_ne _ _ _ _ hs']
          · rw [i3]
            simp
          · have hb : (device == handle) = false := by simp [hh1]
            simp [List.filter, hb, i4]

/-- After a loop that ran to its end no socket of the registry is ready for a
report without new readiness. -/
theorem dispatch_consumes (ready second : Socket_t → Nat) (hno : NoNewReadiness ready second)
    (entries : List (Socket_t × Nat)) (p : Pass)
    (hf : (dispatch ready entries p).fault = none) :
    ∀ s ∈ entries.map Prod.fst,
      FreeRTOS_FD_ISSET second s (dispatch ready entries p).socketSet_ = 0 := by
  induction entries generalizing p with
  | nil => intro s hs; simp at hs
  | cons e rest ih =>
    obtain ⟨s1, h1⟩ := e
    intro s hs
    have hs2 : s = s1 ∨ s ∈ rest.map Prod.fst := by simpa using hs
    unfold dispatch at hf ⊢
    by_cases he : FreeRTOS_FD_ISSET ready s1 p.socketSet_ = 0
    · simp only [he, ne_eq, not_true_eq_false, if_false] at hf ⊢
      rcases hs2 with h2 | h2
      · subst h2
        exact isset_zero_of_sub _ _ _ _ (hno s) (selectBits_dispatch_sub ready rest p s) he
      · exact ih p hf s h2
    · simp only [he, ne_eq, not_false_eq_true, if_true] at hf ⊢
      cases hg : p.deviceManager.GetDevice h1 with
      | none => simp [hg] at hf
      | some device =>
        simp only [hg] at hf ⊢
        rcases hs2 with h2 | h2
        · subst h2
          refine isset_zero_of_sub _ _ _ _ (Nat.and_self _)
            (selectBits_dispatch_sub ready rest _ s) ?_
          show second s &&& selectBits (FreeRTOS_FD_CLR s p.socketSet_ _) s &&& eSELECT_ALL = 0
          rw [selectBits_FD_CLR_self ready s p.socketSet_ he]
          exact isset_after_clr _ _ _ (hno s)
        · exact ih _ hf s h2

/-- The loop does nothing when no socket of the registry is ready. -/
theorem dispatch_idle (ready : Socket_t → Nat) (entries : List (Socket_t × Nat)) (p : Pass)
    (h : ∀ s ∈ entries.map Prod.fst, FreeRTOS_FD_ISSET ready s p.socketSet_ = 0) :
    dispatch ready entries p = p := by
  induction entries generalizing p with
  | nil => rfl
  | cons e rest ih =>
    obtain ⟨s1, h1⟩ := e
    unfold dispatch
    have he : FreeRTOS_FD_ISSET ready s1 p.socketSet_ = 0 := h s1 (by simp)
    simp only [he, ne_eq, not_true_eq_false, if_false]
    exact ih p (fun s hs => h s (by simp at hs ⊢; exact Or.inr hs))

theorem FreeRTOS_select_ne_zero (ready : Socket_t → Nat) (socket : Socket_t)
    (set : Option SocketSet_t) (h : FreeRTOS_FD_ISSET ready socket set ≠ 0) :
    FreeRTOS_select ready set ≠ 0 := by
  cases set with
  | none => exact absurd rfl (socketSet_ne_none_of_FD_ISSET ready socket none h)
  | some m =>
    have hb : selectBits (some m) socket ≠ 0 := by
      intro h0
      apply h
      unfold FreeRTOS_FD_ISSET
      rw [h0]
      simp
    cases hf : HashMap.find m socket with
    | none => simp [selectBits, hf] at hb
    | some v =>
      have hmem := HashMap.mem_of_find m socket v hf
      have hfil : (socket, v) ∈ m.filter
          (fun e => FreeRTOS_FD_ISSET ready e.1 (some m) != 0) := by
        apply List.mem_filter.mpr
        exact ⟨hmem, by simpa using h⟩
      unfold FreeRTOS_select
      simp only [ne_eq, List.length_eq_zero]
      intro hnil
      rw [hnil] at hfil
      simp at hfil

/-! ## Each reported bit is forwarded once -/

theorem SocketHandlerPass_idle (ready : Socket_t → Nat) (st : State)
    (h : ∀ s ∈ st.sockets_.map Prod.fst, FreeRTOS_FD_ISSET ready s st.socketSet_ = 0) :
    SocketHandlerPass ready st
      = { deviceManager := st.deviceManager, socketSet_ := st.socketSet_,
          forwarded := [], fault := none } := by
  unfold SocketHandlerPass
  by_cases hs : FreeRTOS_select ready st.socketSet_ = 0
  · simp only [hs, ne_eq, not_true_eq_false, if_false]
  · simp only [hs, ne_eq, not_false_eq_true, if_true]
    exact dispatch_idle ready st.sockets_ _ h

/-- C5, as stated, fails: after `RegisterSocket(1)`, `UnregisterAndCloseSocket(1)`,
`ListenForSocketEvent(1, 1)`, `RegisterSocket(2)` and `ListenForSocketEvent(2, 1)`
socket `2` is registered with the live device `1` and is reported with the ready
mask `1`; the pass reaches the entry of socket `1` first, dereferences the
invalid reference of its handle `0`, and never serves socket `2`: the flags of
device `1` stay `0`, the Wait Set mask of socket `2` stays `1`, and no `SetFlags`
is made on device `1`. -/
theorem pass_fault_leaves_live_socket_unserved :
    HashMap.find (run (initialState 2)
      [Call.register 1, Call.unregister 1, Call.listen 1 1, Call.register 2,
       Call.listen 2 1]).sockets_ 2 = some 1 ∧
    (run (initialState 2)
      [Call.register 1, Call.unregister 1, Call.listen 1 1, Call.register 2,
       Call.listen 2 1]).deviceManager.GetDevice 1 = some 1 ∧
    FreeRTOS_FD_ISSET (fun _ => 1) 2 (run (initialState 2)
      [Call.register 1, Call.unregister 1, Call.listen 1 1, Call.register 2,
       Call.listen 2 1]).socketSet_ = 1 ∧
    (SocketHandlerPass (fun _ => 1) (run (initialState 2)
      [Call.register 1, Call.unregister 1, Call.listen 1 1, Call.register 2,
       Call.listen 2 1])).fault = some 0 ∧
    (SocketHandlerPass (fun _ => 1) (run (initialState 2)
      [Call.register 1, Call.unregister 1, Call.listen 1 1, Call.register 2,
       Call.listen 2 1])).deviceManager.flags 1 = some 0 ∧
    selectBits (SocketHandlerPass (fun _ => 1) (run (initialState 2)
      [Call.register 1, Call.unregister 1, Call.listen 1 1, Call.register 2,
       Call.listen 2 1])).socketSet_ 2 = 1 ∧
    (SocketHandlerPass (fun _ => 1) (run (initialState 2)
      [Call.register 1, Call.unregister 1, Call.listen 1 1, Call.register 2,
       Call.listen 2 1])).forwarded.filter (fun c => c.1 == 1) = [] := by
  decide

/-- C5, amended: in every reachable state, for a registered socket with a live
device and a non-zero ready mask `e` reported for it, one pass of
`SocketHandlerTask` that runs to its end, dereferencing no invalid device
reference, makes one `SetFlags` call on the socket's device, with exactly the
bits `e`, and clears exactly those bits from the socket's entry in the Wait Set;
a second pass made with no new readiness performs no `SetFlags` at all. -/
theorem SocketHandlerPass_forwards_once (capacity : Nat) (st : State)
    (hreach : Reachable capacity st)
    (ready : Socket_t → Nat) (socket : Socket_t) (handle device e : Nat)
    (hreg : HashMap.find st.sockets_ socket = some handle)
    (hlive : st.deviceManager.GetDevice handle = some device)
    (he : FreeRTOS_FD_ISSET ready socket st.socketSet_ = e) (hne : e ≠ 0)
    (hend : (SocketHandlerPass ready st).fault = none) :
    (SocketHandlerPass ready st).deviceManager.flags handle
      = (st.deviceManager.flags handle).map (fun f => f ||| e) ∧
    selectBits (SocketHandlerPass ready st).socketSet_ socket
      = clearBits (selectBits st.socketSet_ socket) e ∧
    (SocketHandlerPass ready st).forwarded.filter (fun c => c.1 == handle) = [(handle, e)] ∧
    ∃ st1, (SocketHandlerPass ready st).state st = Outcome.ok st1 ∧
      ∀ second, NoNewReadiness ready second →
        (SocketHandlerPass second st1).forwarded = [] ∧
        (SocketHandlerPass second st1).state st1 = Outcome.ok st1 := by
  subst he
  have hc := RegistrySound_of_Reachable capacity st hreach
  obtain ⟨-, h0, -⟩ := DeviceManager.GetDevice_eq_some _ _ _ hlive
  have hsel := FreeRTOS_select_ne_zero ready socket st.socketSet_ hne
  have hpass : SocketHandlerPass ready st = dispatch ready st.sockets_
      { deviceManager := st.deviceManager, socketSet_ := st.socketSet_,
        forwarded := [], fault := none } := by
    unfold SocketHandlerPass
    simp only [hsel, ne_eq, not_false_eq_true, if_true]
  obtain ⟨i1, i2, new, i3, i4⟩ := dispatch_serves ready st.sockets_
    { deviceManager := st.deviceManager, socketSet_ := st.socketSet_,
      forwarded := [], fault := none } socket handle hc.nodup
    (HashMap.mem_of_find _ _ _ hreg)
    (by rw [← hpass]; exact hend)
    (by
      intro s h hm hs heq
      rw [heq] at hm
      exact hs (hc.distinct s socket handle (HashMap.find_of_mem _ _ _ hc.nodup hm) hreg h0))
    hne
  rw [← hpass] at i1 i2 i3
  refine ⟨i1, i2, ?_, ?_⟩
  · rw [i3]
    simpa using i4
  · refine ⟨{ st with deviceManager := (SocketHandlerPass ready st).deviceManager,
                      socketSet_ := (SocketHandlerPass ready st).socketSet_ }, ?_, ?_⟩
    · unfold Pass.state
      rw [hend]
    · intro second hno
      have hidle : ∀ s ∈ st.sockets_.map Prod.fst,
          FreeRTOS_FD_ISSET second s (SocketHandlerPass ready st).socketSet_ = 0 := by
        rw [hpass]
        apply dispatch_consumes ready second hno
        rw [← hpass]
        exact hend
      have hsecond : SocketHandlerPass second
          { st with deviceManager := (SocketHandlerPass ready st).deviceManager,
                    socketSet_ := (SocketHandlerPass ready st).socketSet_ }
          = { deviceManager := (SocketHandlerPass ready st).deviceManager,
              socketSet_ := (SocketHandlerPass ready st).socketSet_,
              forwarded := [], fault := none } :=
        SocketHandlerPass_idle second _ hidle
      rw [hsecond]
      exact ⟨rfl, rfl⟩

/-- C5, amended, at socket `1` of two listening sockets, with socket `1` reported
readable. -/
theorem SocketHandlerPass_forwards_once_witness :
    (SocketHandlerPass (fun s => if s = 1 then 1 else 0)
      (run (initialState 2)
        [Call.register 1, Call.listen 1 3, Call.register 2, Call.listen 2 1])).deviceManager.flags 1
      = some 1 ∧
    selectBits (SocketHandlerPass (fun s => if s = 1 then 1 else 0)
      (run (initialState 2)
        [Call.register 1, Call.listen 1 3, Call.register 2, Call.listen 2 1])).socketSet_ 1
      = 2 ∧
    (SocketHandlerPass (fun s => if s = 1 then 1 else 0)
      (run (initialState 2)
        [Call.register 1, Call.listen 1 3, Call.register 2, Call.listen 2 1])).forwarded.filter
        (fun c => c.1 == 1) = [(1, 1)] := by
  have h := SocketHandlerPass_forwards_once 2
    (run (initialState 2) [Call.register 1, Call.listen 1 3, Call.register 2, Call.listen 2 1])
    (Reachable_run 2 _ _ Reachable.init)
    (fun s => if s = 1 then 1 else 0) 1 1 1 1 (by decide) (by decide) (by decide) (by decide)
    (by decide)
  exact ⟨h.1, h.2.1, h.2.2.1⟩

/-! ## Registration followed by unregistration -/

/-- C6: after `RegisterSocket(s)` followed immediately by
`UnregisterAndCloseSocket(s)` the device that the registration created, which
was live in between, is removed: its handle identifies no device, the handle
the registry holds for `s` identifies no device, and the Wait Set has no entry
for `s`. -/
theorem register_then_unregister_leaves_nothing (st : State) (socket : Socket_t) :
    ((RegisterSocket socket st).1 ≠ 0 →
      (RegisterSocket socket st).2.deviceManager.GetDevice (RegisterSocket socket st).1
        = some (RegisterSocket socket st).1) ∧
    (UnregisterAndCloseSocket socket (RegisterSocket socket st).2).deviceManager.GetDevice
        (RegisterSocket socket st).1 = none ∧
    HashMap.find (UnregisterAndCloseSocket socket (RegisterSocket socket st).2).sockets_ socket
      = some 0 ∧
    (∀ handle,
      HashMap.find (UnregisterAndCloseSocket socket (RegisterSocket socket st).2).sockets_
          socket = some handle →
      (UnregisterAndCloseSocket socket (RegisterSocket socket st).2).deviceManager.GetDevice
          handle = none) ∧
    ¬ inSocketSet (UnregisterAndCloseSocket socket (RegisterSocket socket st).2).socketSet_
        socket := by
  have hfind : HashMap.find (RegisterSocket socket st).2.sockets_ socket
      = some (RegisterSocket socket st).1 := HashMap.find_set_self _ _ _
  have hidx : (HashMap.index (RegisterSocket socket st).2.sockets_ socket).1
      = (RegisterSocket socket st).1 := by
    rw [HashMap.index_fst, hfind]; rfl
  have hdev : (UnregisterAndCloseSocket socket (RegisterSocket socket st).2).deviceManager
      = (RegisterSocket socket st).2.deviceManager.RemoveDevice
          ((RegisterSocket socket st).2.deviceManager.GetDevice (RegisterSocket socket st).1) := by
    show DeviceManager.RemoveDevice _ (DeviceManager.GetDevice _
      (HashMap.index (RegisterSocket socket st).2.sockets_ socket).1) = _
    rw [hidx]
  have hzero : HashMap.find
      (UnregisterAndCloseSocket socket (RegisterSocket socket st).2).sockets_ socket = some 0 := by
    rw [sockets_UnregisterAndCloseSocket]
    exact HashMap.find_set_self _ _ _
  refine ⟨?_, ?_, hzero, ?_, ?_⟩
  · intro h0
    exact (GetDevice_CreateSocket_fresh st.deviceManager h0).1
  · rw [hdev]
    exact GetDevice_RemoveDevice_GetDevice _ _
  · intro handle h
    rw [hzero] at h
    cases h
    exact DeviceManager.GetDevice_zero _
  · exact not_inSocketSet_FD_CLR_all _ _

end Dartino
